import Mathlib

/-! The VFS mount-table resolver and dispatcher (`python/src/extmod/vfs.c`).

A shallow embedding of `vfs.c`.  C strings are lists of characters: the list
holds the bytes in front of the terminating NUL, so reading at or past the
end of the list reads `'\0'`.  The mount table (a singly linked list of
`mp_vfs_mount_t` nodes) is a `List`, a `NULL` link is `[]`.  Backends are
objects of the scripting runtime: calling a method on one is a step of an
arbitrary stateful oracle (`Runtime`), and every such step is recorded in a
trace, so that "no backend is invoked" is the statement that the trace did
not grow.
-/

set_option autoImplicit false

namespace Vfs

/-! ## Data model -/

/-- The NUL byte that terminates a C string. -/
def NUL : Char := Char.ofNat 0

/-- One node of the mount table: `str` is the mount point (`vfs->str`, of
length `vfs->len`), `obj` the handle of the mounted backend object. -/
structure mp_vfs_mount_t where
  str : List Char
  obj : Nat
  deriving DecidableEq, Repr

/-- The stored length `vfs->len` of the mount point. -/
def mp_vfs_mount_t.len (vfs : mp_vfs_mount_t) : Nat := vfs.str.length

/-- A value of type `mp_vfs_mount_t *` as the resolver returns it: one of the
two sentinels `MP_VFS_NONE`, `MP_VFS_ROOT`, or a node of the mount table. -/
inductive mp_vfs_mount_ptr where
  | MP_VFS_NONE
  | MP_VFS_ROOT
  | node (vfs : mp_vfs_mount_t)
  deriving DecidableEq, Repr

open mp_vfs_mount_ptr

/-- The data-model invariant on a mount point: it starts with `/` and, being
a C string, holds no NUL. -/
def mp_vfs_mount_t.wf (vfs : mp_vfs_mount_t) : Prop :=
  vfs.str.head? = some '/' ∧ NUL ∉ vfs.str

instance (vfs : mp_vfs_mount_t) : Decidable vfs.wf := by
  unfold mp_vfs_mount_t.wf; infer_instance

/-- Every node of the table satisfies the mount-point invariant. -/
def tableWf (T : List mp_vfs_mount_t) : Prop := ∀ vfs ∈ T, vfs.wf

instance (T : List mp_vfs_mount_t) : Decidable (tableWf T) := by
  unfold tableWf; infer_instance

/-! ## C string primitives -/

/-- The byte `s[i]` of a C string; the terminator is read at the end. -/
def charAt (s : List Char) (i : Nat) : Char := s.getD i NUL

/-- Whether `strncmp(s1, s2, n) == 0`: the first `n` bytes agree, the
comparison stopping early at a common NUL. -/
def strncmp_eq : List Char → List Char → Nat → Bool
  | _, _, 0 => true
  | s1, s2, n + 1 =>
    let c1 := charAt s1 0
    let c2 := charAt s2 0
    if c1 ≠ c2 then false
    else if c1 = NUL then true
    else strncmp_eq s1.tail s2.tail n

/-- The C string a pointer into a buffer denotes: the bytes up to the first
NUL (`strlen` counts exactly these). -/
def cstr (s : List Char) : List Char := s.takeWhile (fun c => c ≠ NUL)

/-! ## `mp_vfs_lookup_path` -/

/-- The pointer `path - is_abs`: when the leading slash was skipped, one step
back is that slash again. -/
def ptr_back (path : List Char) (is_abs : Bool) : List Char :=
  if is_abs then '/' :: path else path

/-- The `for` loop of `mp_vfs_lookup_path` over the mount table, started at
node list `T`: the first node that matches together with `*path_out`, or
`none` when the loop runs off the end of the table.  The subtraction
`vfs->len - 1` is that of the source for a mount point of length at least 1,
which `tableWf` guarantees; on the length 0 the `size_t` of the source wraps
and its `strncmp` reads past the string, which no list models. -/
def lookup_loop (path : List Char) (is_abs : Bool) :
    List mp_vfs_mount_t → Option (mp_vfs_mount_t × List Char)
  | [] => none
  | vfs :: next =>
    let len := vfs.len - 1
    if len = 0 then
      some (vfs, ptr_back path is_abs)
    else if strncmp_eq path (vfs.str.drop 1) len then
      if charAt path len = '/' then
        some (vfs, path.drop len)
      else if charAt path len = NUL then
        some (vfs, ['/'])
      else lookup_loop path is_abs next
    else lookup_loop path is_abs next

/-- The resolver `mp_vfs_lookup_path(path, &path_out)` for mount table `T`
and current volume `cur`.  The second component is `*path_out` where the
function writes it, `none` where it leaves it undefined. -/
def mp_vfs_lookup_path (T : List mp_vfs_mount_t) (cur : mp_vfs_mount_ptr)
    (path : List Char) : mp_vfs_mount_ptr × Option (List Char) :=
  if charAt path 0 = '/' ∨ cur = MP_VFS_ROOT then
    let is_abs : Bool := decide (charAt path 0 = '/')
    let path1 := if is_abs then path.drop 1 else path
    if charAt path1 0 = NUL then
      (MP_VFS_ROOT, none)
    else
      match lookup_loop path1 is_abs T with
      | some (vfs, out) => (node vfs, some out)
      | none =>
        if is_abs then (MP_VFS_NONE, none)
        else (cur, some path1)
  else
    (cur, some path)

/-! ## Runtime objects, exceptions and the machine state -/

/-- Runtime objects (`mp_obj_t`) as far as this layer looks into them; `obj`
is an object that only its backend understands (file, directory iterator). -/
inductive Val where
  | none
  | int (n : Int)
  | str (s : List Char)
  | bytes (s : List Char)
  | tuple (items : List Val)
  | list (items : List Val)
  | obj (h : Nat)

/-- Exceptions that unwind through `nlr`. -/
inductive Exc where
  | OSError (errno : Int)
  | TypeError
  | ValueError
  | IndexError
  | other (tag : Nat)
  deriving DecidableEq, Repr

/-- The method names (`MP_QSTR_...`) passed to `mp_vfs_proxy_call`. -/
inductive qstr where
  | MP_QSTR_open
  | MP_QSTR_stat
  | MP_QSTR_statvfs
  | MP_QSTR_mkdir
  | MP_QSTR_rmdir
  | MP_QSTR_remove
  | MP_QSTR_rename
  | MP_QSTR_chdir
  | MP_QSTR_getcwd
  | MP_QSTR_ilistdir
  deriving DecidableEq, Repr

open qstr

/-- The result type `mp_import_stat_t`. -/
inductive mp_import_stat_t where
  | MP_IMPORT_STAT_NO_EXIST
  | MP_IMPORT_STAT_DIR
  | MP_IMPORT_STAT_FILE
  deriving DecidableEq, Repr

open mp_import_stat_t

/-- One step into code outside this file that belongs to a backend (or to the
POSIX handler): a method call on a mounted object, `mp_iternext` on an
iterator a backend returned, the protocol helper `import_stat`, and
`mp_vfs_posix_file_open`. -/
inductive Event where
  | call (obj : Nat) (meth : qstr) (args : List Val)
  | iternext (iter : Val)
  | import_stat (obj : Nat) (path : List Char)
  | posix_open (file mode : Val)

/-- Constants of headers that are not part of this file (`py/mperrno.h`,
`py/mpconfig.h`, `extmod/vfs.h`): they are parameters of the embedding. -/
structure Config where
  MP_EPERM : Int
  MP_ENODEV : Int
  MP_EEXIST : Int
  MP_S_IFDIR : Int
  MICROPY_ALLOC_PATH_MAX : Int
  MICROPY_VFS_POSIX : Bool

/-- The scripting runtime and the backends, as an arbitrary stateful oracle
over a world `σ`: `call_method` is `mp_load_method` followed by
`mp_call_method_n_kw` on a mounted object, `iternext` is `mp_iternext` on an
object a backend returned, `subscr` is `mp_obj_subscr` on an object that is
not a tuple, `has_protocol` says whether the type of a mounted object has a
VFS protocol and `proto_import_stat` is that protocol's helper. -/
structure Runtime (σ : Type) where
  call_method : σ → Nat → qstr → List Val → Except Exc Val × σ
  iternext : σ → Val → Except Exc (Option Val) × σ
  subscr : σ → Val → Val → Except Exc Val × σ
  has_protocol : Nat → Bool
  proto_import_stat : σ → Nat → List Char → Except Exc mp_import_stat_t × σ
  posix_file_open : σ → Val → Val → Except Exc Val × σ

/-- The part of `MP_STATE_VM` this file uses, with the world of the backends
and the trace of the steps made into them. -/
structure mp_state_vm (σ : Type) where
  vfs_mount_table : List mp_vfs_mount_t
  vfs_cur : mp_vfs_mount_ptr
  world : σ
  trace : List Event

/-- Results of the operations: a value or a raised exception, and the state
the machine is left in. -/
abbrev Res (σ : Type) (α : Type) : Type := Except Exc α × mp_state_vm σ

/-- The data buffer of a string object, `mp_obj_str_get_str`; raises
`TypeError` on an object that is neither `str` nor `bytes`. -/
def mp_obj_str_get_str : Val → Except Exc (List Char)
  | Val.str s => .ok s
  | Val.bytes s => .ok s
  | _ => .error Exc.TypeError

/-- A new string object of the type of `like` (`str` unless `like` is a
`bytes` object): `mp_obj_new_str_of_type(mp_obj_get_type(like), ...)`. -/
def mp_obj_new_str_of_type (like : Val) (data : List Char) : Val :=
  match like with
  | Val.bytes _ => Val.bytes data
  | _ => Val.str data

/-- The object `MP_OBJ_NEW_QSTR(MP_QSTR__slash_)`, the string `/`. -/
def MP_QSTR__slash_ : Val := Val.str ['/']

/-- The string-object version `lookup_path(path_in, &path_out)`.  The
argument `path_out` is the previous content of the out-parameter, which the
function leaves untouched for the two sentinels. -/
def lookup_path {σ : Type} (s : mp_state_vm σ) (path_in : Val) (path_out : Val) :
    Except Exc (mp_vfs_mount_ptr × Val) :=
  match mp_obj_str_get_str path_in with
  | .error e => .error e
  | .ok path =>
    match mp_vfs_lookup_path s.vfs_mount_table s.vfs_cur path with
    | (node vfs, some p_out) =>
      .ok (node vfs, mp_obj_new_str_of_type path_in (cstr p_out))
    | (vfs, _) => .ok (vfs, path_out)

/-- The dispatcher `mp_vfs_proxy_call(vfs, meth_name, n_args, args)`. -/
def mp_vfs_proxy_call {σ : Type} (K : Config) (R : Runtime σ) (vfs : mp_vfs_mount_ptr)
    (meth_name : qstr) (args : List Val) (s : mp_state_vm σ) : Res σ Val :=
  match vfs with
  | MP_VFS_NONE => (.error (Exc.OSError K.MP_ENODEV), s)
  | MP_VFS_ROOT => (.error (Exc.OSError K.MP_EPERM), s)
  | node v =>
    let r := R.call_method s.world v.obj meth_name args
    (r.1, { s with world := r.2, trace := s.trace ++ [Event.call v.obj meth_name args] })

/-! ## The operations -/

/-- The array of a 10-sequence, `mp_obj_get_array_fixed_n(o, 10, &items)`. -/
def mp_obj_get_array_fixed_n (o : Val) (n : Nat) : Except Exc (List Val) :=
  match o with
  | Val.tuple items => if items.length = n then .ok items else .error Exc.ValueError
  | Val.list items => if items.length = n then .ok items else .error Exc.ValueError
  | _ => .error Exc.TypeError

/-- The integer of an object, `mp_obj_get_int`. -/
def mp_obj_get_int : Val → Except Exc Int
  | Val.int n => .ok n
  | _ => .error Exc.TypeError

/-- The function `mp_vfs_import_stat(path)`; the `nlr_push` block turns an
exception of the `stat` call into `MP_IMPORT_STAT_NO_EXIST`. -/
def mp_vfs_import_stat {σ : Type} (K : Config) (R : Runtime σ) (path : List Char)
    (s : mp_state_vm σ) : Res σ mp_import_stat_t :=
  match mp_vfs_lookup_path s.vfs_mount_table s.vfs_cur path with
  | (MP_VFS_NONE, _) => (.ok MP_IMPORT_STAT_NO_EXIST, s)
  | (MP_VFS_ROOT, _) => (.ok MP_IMPORT_STAT_NO_EXIST, s)
  | (node vfs, p_out) =>
    let path_out := p_out.getD []
    if R.has_protocol vfs.obj then
      let r := R.proto_import_stat s.world vfs.obj (cstr path_out)
      (r.1, { s with world := r.2,
                     trace := s.trace ++ [Event.import_stat vfs.obj (cstr path_out)] })
    else
      let path_o := Val.str (cstr path_out)
      match mp_vfs_proxy_call K R (node vfs) MP_QSTR_stat [path_o] s with
      | (.error _, s1) => (.ok MP_IMPORT_STAT_NO_EXIST, s1)
      | (.ok stat, s1) =>
        match mp_obj_get_array_fixed_n stat 10 with
        | .error e => (.error e, s1)
        | .ok items =>
          match mp_obj_get_int (items.getD 0 Val.none) with
          | .error e => (.error e, s1)
          | .ok st_mode =>
            if Int.land st_mode K.MP_S_IFDIR ≠ 0 then (.ok MP_IMPORT_STAT_DIR, s1)
            else (.ok MP_IMPORT_STAT_FILE, s1)

/-- The function `mp_vfs_open` after argument parsing: `file` and `mode` are
`args[ARG_file]` and `args[ARG_mode]`. -/
def mp_vfs_open {σ : Type} (K : Config) (R : Runtime σ) (file mode : Val)
    (s : mp_state_vm σ) : Res σ Val :=
  match K.MICROPY_VFS_POSIX, file with
  | true, Val.int _ =>
    let r := R.posix_file_open s.world file mode
    (r.1, { s with world := r.2, trace := s.trace ++ [Event.posix_open file mode] })
  | _, _ =>
    match lookup_path s file file with
    | .error e => (.error e, s)
    | .ok (vfs, file1) => mp_vfs_proxy_call K R vfs MP_QSTR_open [file1, mode] s

/-- The loop of `mp_vfs_chdir` and `mp_vfs_statvfs` that walks the table to
the first node with `vfs->len == 1`; `none` is the `NULL` the walk ends on
when there is no such node. -/
def first_root_mount : List mp_vfs_mount_t → Option mp_vfs_mount_t
  | [] => none
  | vfs :: next => if vfs.len = 1 then some vfs else first_root_mount next

/-- The function `mp_vfs_chdir(path_in)`. -/
def mp_vfs_chdir {σ : Type} (K : Config) (R : Runtime σ) (path_in : Val)
    (s : mp_state_vm σ) : Res σ Val :=
  match lookup_path s path_in Val.none with
  | .error e => (.error e, s)
  | .ok (vfs, path_out) =>
    let s1 := { s with vfs_cur := vfs }
    if vfs = MP_VFS_ROOT then
      match first_root_mount s1.vfs_mount_table with
      | some v =>
        match mp_vfs_proxy_call K R (node v) MP_QSTR_chdir [MP_QSTR__slash_] s1 with
        | (.error e, s2) => (.error e, s2)
        | (.ok _, s2) => (.ok Val.none, s2)
      | none => (.ok Val.none, s1)
    else
      match mp_vfs_proxy_call K R vfs MP_QSTR_chdir [path_out] s1 with
      | (.error e, s2) => (.error e, s2)
      | (.ok _, s2) => (.ok Val.none, s2)

/-- The function `mp_vfs_getcwd()`. -/
def mp_vfs_getcwd {σ : Type} (K : Config) (R : Runtime σ) (s : mp_state_vm σ) : Res σ Val :=
  if s.vfs_cur = MP_VFS_ROOT then
    (.ok MP_QSTR__slash_, s)
  else
    match mp_vfs_proxy_call K R s.vfs_cur MP_QSTR_getcwd [] s with
    | (.error e, s1) => (.error e, s1)
    | (.ok cwd_o, s1) =>
      match s1.vfs_cur with
      | node cur =>
        if cur.len = 1 then
          (.ok cwd_o, s1)
        else
          match mp_obj_str_get_str cwd_o with
          | .error e => (.error e, s1)
          | .ok cwd =>
            let vstr := cur.str
            let vstr := if ¬ (charAt cwd 0 = '/' ∧ charAt cwd 1 = NUL) then vstr ++ cstr cwd
                        else vstr
            (.ok (Val.str vstr), s1)
      | _ => (.ok cwd_o, s1)

/-- The union `cur` of `mp_vfs_ilistdir_it_t`, tagged with the member that
was written last. -/
inductive ilistdir_cur where
  | vfs (p : List mp_vfs_mount_t)
  | iter (o : Val)

/-- The iterator object `mp_vfs_ilistdir_it_t` (its `iternext` slot is always
`mp_vfs_ilistdir_it_iternext`). -/
structure mp_vfs_ilistdir_it_t where
  cur : ilistdir_cur
  is_str : Bool
  is_iter : Bool

/-- The call `mp_iternext(o)` on an object that a backend returned;
`MP_OBJ_STOP_ITERATION` is `none`. -/
def mp_iternext {σ : Type} (R : Runtime σ) (o : Val) (s : mp_state_vm σ) :
    Res σ (Option Val) :=
  let r := R.iternext s.world o
  (r.1, { s with world := r.2, trace := s.trace ++ [Event.iternext o] })

/-- The function `mp_vfs_ilistdir_it_iternext(self_in)`: the result, the
iterator object after the call, and the machine state.  The outer `none` is
undefined behaviour, a read of the member of `cur` that is not the one
written last. -/
def mp_vfs_ilistdir_it_iternext {σ : Type} (K : Config) (R : Runtime σ)
    (self : mp_vfs_ilistdir_it_t) (s : mp_state_vm σ) :
    Option (Except Exc (Option Val) × mp_vfs_ilistdir_it_t × mp_state_vm σ) :=
  if self.is_iter then
    match self.cur with
    | ilistdir_cur.iter o =>
      let r := mp_iternext R o s
      some (r.1, self, r.2)
    | ilistdir_cur.vfs _ => none
  else
    match self.cur with
    | ilistdir_cur.vfs [] => some (.ok none, self, s)
    | ilistdir_cur.vfs (vfs :: next) =>
      let self1 := { self with cur := ilistdir_cur.vfs next }
      if vfs.len = 1 then
        let self2 := { self1 with is_iter := true }
        match mp_vfs_proxy_call K R (node vfs) MP_QSTR_ilistdir [MP_QSTR__slash_] s with
        | (.error e, s1) => some (.error e, self2, s1)
        | (.ok it, s1) =>
          let self3 := { self2 with cur := ilistdir_cur.iter it }
          let r := mp_iternext R it s1
          some (r.1, self3, r.2)
      else
        let name := (vfs.str.drop 1).take (vfs.len - 1)
        let t := Val.tuple [if self.is_str then Val.str name else Val.bytes name,
                            Val.int K.MP_S_IFDIR, Val.int 0]
        some (.ok (some t), self1, s)
    | ilistdir_cur.iter _ => none

/-- What `mp_vfs_ilistdir` returns: its own iterator object, or whatever the
backend's `ilistdir` returned. -/
inductive ilistdir_obj where
  | it (self : mp_vfs_ilistdir_it_t)
  | backend (o : Val)

/-- Whether `mp_obj_get_type(o) == &mp_type_str`. -/
def is_type_str : Val → Bool
  | Val.str _ => true
  | _ => false

/-- The function `mp_vfs_ilistdir(n_args, args)`, with `n_args` 0 or 1. -/
def mp_vfs_ilistdir {σ : Type} (K : Config) (R : Runtime σ) (args : Option Val)
    (s : mp_state_vm σ) : Res σ ilistdir_obj :=
  let path_in := match args with
    | some a => a
    | none => Val.str []
  match lookup_path s path_in Val.none with
  | .error e => (.error e, s)
  | .ok (vfs, path_out) =>
    if vfs = MP_VFS_ROOT then
      (.ok (ilistdir_obj.it { cur := ilistdir_cur.vfs s.vfs_mount_table,
                              is_str := is_type_str path_in,
                              is_iter := false }), s)
    else
      match mp_vfs_proxy_call K R vfs MP_QSTR_ilistdir [path_out] s with
      | (.error e, s1) => (.error e, s1)
      | (.ok o, s1) => (.ok (ilistdir_obj.backend o), s1)

/-- The call `mp_iternext(iter)` on what `mp_vfs_ilistdir` returned. -/
def ilistdir_obj_iternext {σ : Type} (K : Config) (R : Runtime σ) (iter : ilistdir_obj)
    (s : mp_state_vm σ) : Option (Except Exc (Option Val) × ilistdir_obj × mp_state_vm σ) :=
  match iter with
  | ilistdir_obj.it self =>
    match mp_vfs_ilistdir_it_iternext K R self s with
    | some (r, self1, s1) => some (r, ilistdir_obj.it self1, s1)
    | none => none
  | ilistdir_obj.backend o =>
    let r := mp_iternext R o s
    some (r.1, iter, r.2)

/-- The call `mp_obj_subscr(base, MP_OBJ_NEW_SMALL_INT(0), MP_OBJ_SENTINEL)`. -/
def mp_obj_subscr_0 {σ : Type} (R : Runtime σ) (base : Val) (s : mp_state_vm σ) : Res σ Val :=
  match base with
  | Val.tuple (x :: _) => (.ok x, s)
  | Val.tuple [] => (.error Exc.IndexError, s)
  | Val.list (x :: _) => (.ok x, s)
  | Val.list [] => (.error Exc.IndexError, s)
  | _ =>
    let r := R.subscr s.world base (Val.int 0)
    (r.1, { s with world := r.2 })

/-- The `while` loop of `mp_vfs_listdir`, run for at most `fuel` calls of
`mp_iternext`; `none` when the fuel runs out or the behaviour is undefined. -/
def listdir_loop {σ : Type} (K : Config) (R : Runtime σ) :
    Nat → ilistdir_obj → List Val → mp_state_vm σ → Option (Res σ (List Val))
  | 0, _, _, _ => none
  | fuel + 1, iter, dir_list, s =>
    match ilistdir_obj_iternext K R iter s with
    | none => none
    | some (.error e, _, s1) => some (.error e, s1)
    | some (.ok none, _, s1) => some (.ok dir_list, s1)
    | some (.ok (some next), iter1, s1) =>
      match mp_obj_subscr_0 R next s1 with
      | (.error e, s2) => some (.error e, s2)
      | (.ok x, s2) => listdir_loop K R fuel iter1 (dir_list ++ [x]) s2

/-- The function `mp_vfs_listdir(n_args, args)`, its loop bounded by `fuel`. -/
def mp_vfs_listdir {σ : Type} (K : Config) (R : Runtime σ) (fuel : Nat) (args : Option Val)
    (s : mp_state_vm σ) : Option (Res σ (List Val)) :=
  match mp_vfs_ilistdir K R args s with
  | (.error e, s1) => some (.error e, s1)
  | (.ok iter, s1) => listdir_loop K R fuel iter [] s1

/-- Whether `!strcmp(mp_obj_str_get_str(o), "/")` holds. -/
def str_is_slash (o : Val) : Except Exc Bool :=
  match mp_obj_str_get_str o with
  | .error e => .error e
  | .ok p => .ok (decide (cstr p = ['/']))

/-- The function `mp_vfs_mkdir(path_in)`. -/
def mp_vfs_mkdir {σ : Type} (K : Config) (R : Runtime σ) (path_in : Val)
    (s : mp_state_vm σ) : Res σ Val :=
  match lookup_path s path_in Val.none with
  | .error e => (.error e, s)
  | .ok (vfs, path_out) =>
    match vfs with
    | MP_VFS_ROOT => (.error (Exc.OSError K.MP_EEXIST), s)
    | MP_VFS_NONE => mp_vfs_proxy_call K R vfs MP_QSTR_mkdir [path_out] s
    | node _ =>
      match str_is_slash path_out with
      | .error e => (.error e, s)
      | .ok true => (.error (Exc.OSError K.MP_EEXIST), s)
      | .ok false => mp_vfs_proxy_call K R vfs MP_QSTR_mkdir [path_out] s

/-- The function `mp_vfs_remove(path_in)`. -/
def mp_vfs_remove {σ : Type} (K : Config) (R : Runtime σ) (path_in : Val)
    (s : mp_state_vm σ) : Res σ Val :=
  match lookup_path s path_in Val.none with
  | .error e => (.error e, s)
  | .ok (vfs, path_out) => mp_vfs_proxy_call K R vfs MP_QSTR_remove [path_out] s

/-- The function `mp_vfs_rename(old_path_in, new_path_in)`. -/
def mp_vfs_rename {σ : Type} (K : Config) (R : Runtime σ) (old_path_in new_path_in : Val)
    (s : mp_state_vm σ) : Res σ Val :=
  match lookup_path s old_path_in Val.none with
  | .error e => (.error e, s)
  | .ok (old_vfs, args0) =>
    match lookup_path s new_path_in Val.none with
    | .error e => (.error e, s)
    | .ok (new_vfs, args1) =>
      if old_vfs ≠ new_vfs then
        (.error (Exc.OSError K.MP_EPERM), s)
      else
        mp_vfs_proxy_call K R old_vfs MP_QSTR_rename [args0, args1] s

/-- The function `mp_vfs_rmdir(path_in)`. -/
def mp_vfs_rmdir {σ : Type} (K : Config) (R : Runtime σ) (path_in : Val)
    (s : mp_state_vm σ) : Res σ Val :=
  match lookup_path s path_in Val.none with
  | .error e => (.error e, s)
  | .ok (vfs, path_out) => mp_vfs_proxy_call K R vfs MP_QSTR_rmdir [path_out] s

/-- The function `mp_vfs_stat(path_in)`. -/
def mp_vfs_stat {σ : Type} (K : Config) (R : Runtime σ) (path_in : Val)
    (s : mp_state_vm σ) : Res σ Val :=
  match lookup_path s path_in Val.none with
  | .error e => (.error e, s)
  | .ok (vfs, path_out) =>
    if vfs = MP_VFS_ROOT then
      (.ok (Val.tuple (Val.int K.MP_S_IFDIR :: List.replicate 9 (Val.int 0))), s)
    else
      mp_vfs_proxy_call K R vfs MP_QSTR_stat [path_out] s

/-- The function `mp_vfs_statvfs(path_in)`. -/
def mp_vfs_statvfs {σ : Type} (K : Config) (R : Runtime σ) (path_in : Val)
    (s : mp_state_vm σ) : Res σ Val :=
  match lookup_path s path_in Val.none with
  | .error e => (.error e, s)
  | .ok (vfs, path_out) =>
    if vfs = MP_VFS_ROOT then
      match first_root_mount s.vfs_mount_table with
      | none =>
        (.ok (Val.tuple (List.replicate 9 (Val.int 0) ++ [Val.int K.MICROPY_ALLOC_PATH_MAX])), s)
      | some v => mp_vfs_proxy_call K R (node v) MP_QSTR_statvfs [MP_QSTR__slash_] s
    else
      mp_vfs_proxy_call K R vfs MP_QSTR_statvfs [path_out] s

/-! ## Definitions that follow the words of the specification -/

/-- The boundary match of the specification, on the path `/q`: the mount
point is `/`, or `q` starts with the mount point without its leading slash
and goes on with `/` or ends there. -/
def boundary_matches (vfs : mp_vfs_mount_t) (q : List Char) : Bool :=
  decide (vfs.str = ['/']) ||
  ((vfs.str.drop 1).isPrefixOf q &&
    match q.drop (vfs.str.drop 1).length with
    | [] => true
    | c :: _ => decide (c = '/'))

/-- The path object `path_in` is a string that the resolver, in state `s`,
resolves to target `t`. -/
def resolves_to {σ : Type} (s : mp_state_vm σ) (path_in : Val) (t : mp_vfs_mount_ptr) : Prop :=
  ∃ path, mp_obj_str_get_str path_in = .ok path ∧
    (mp_vfs_lookup_path s.vfs_mount_table s.vfs_cur path).1 = t

/-- The path object `path_in` is a string that the resolver, in state `s`,
resolves to the node `e` with the remainder `r` (the C string that
`*path_out` points to). -/
def resolves_with {σ : Type} (s : mp_state_vm σ) (path_in : Val) (e : mp_vfs_mount_t)
    (r : List Char) : Prop :=
  ∃ path out, mp_obj_str_get_str path_in = .ok path ∧
    mp_vfs_lookup_path s.vfs_mount_table s.vfs_cur path = (node e, some out) ∧
    cstr out = r

/-- Exactly one backend call, method `meth` of the object `obj` on `args`:
its result or error as it is, the world the call leaves, and the trace
longer by this one call. -/
def one_call {σ : Type} (R : Runtime σ) (s : mp_state_vm σ) (obj : Nat) (meth : qstr)
    (args : List Val) : Res σ Val :=
  ((R.call_method s.world obj meth args).1,
   { s with world := (R.call_method s.world obj meth args).2,
            trace := s.trace ++ [Event.call obj meth args] })

/-- The remainder that the resolver computes for a path `/q` (or for the
relative path `q` when `is_abs` is false) and a node that boundary-matches
it. -/
def loop_remainder (q : List Char) (is_abs : Bool) (vfs : mp_vfs_mount_t) : List Char :=
  if vfs.str = ['/'] then ptr_back q is_abs
  else if q.drop (vfs.len - 1) = [] then ['/'] else q.drop (vfs.len - 1)

/-! ## Example data -/

/-- The mount point `/usb`. -/
def s_usb : List Char := ['/', 'u', 's', 'b']

/-- The mount point `/flash`. -/
def s_flash : List Char := ['/', 'f', 'l', 'a', 's', 'h']

/-- The mount point `/data`. -/
def s_data : List Char := ['/', 'd', 'a', 't', 'a']

/-- The mount point `/usb/deep`, which lies below `/usb`. -/
def s_usb_deep : List Char := ['/', 'u', 's', 'b', '/', 'd', 'e', 'e', 'p']

/-- A table in which a longer mount point comes after a shorter one that
covers it, and the root mount comes last. -/
def table_overlap : List mp_vfs_mount_t :=
  [⟨s_usb, 1⟩, ⟨s_usb_deep, 2⟩, ⟨['/'], 3⟩]

/-- A table whose only mount point is `/data`. -/
def table_data : List mp_vfs_mount_t := [⟨s_data, 1⟩]

/-- The path `/database/x` without its leading slash. -/
def q_database_x : List Char := ['d', 'a', 't', 'a', 'b', 'a', 's', 'e', '/', 'x']

/-- A table with a backend mounted at `/` only. -/
def table_root : List mp_vfs_mount_t := [⟨['/'], 1⟩]

/-- A table with `/usb` and `/flash` and nothing at the root. -/
def table_usb_flash : List mp_vfs_mount_t := [⟨s_usb, 1⟩, ⟨s_flash, 2⟩]

/-- A table in which the backend mounted at `/` comes before `/usb`. -/
def table_root_usb : List mp_vfs_mount_t := [⟨['/'], 1⟩, ⟨s_usb, 2⟩]

/-- The usual values of the constants: `EPERM` 1, `ENODEV` 19, `EEXIST` 17,
`S_IFDIR` 0x4000, a path maximum of 512, no POSIX backend. -/
def config_std : Config :=
  { MP_EPERM := 1, MP_ENODEV := 19, MP_EEXIST := 17, MP_S_IFDIR := 16384,
    MICROPY_ALLOC_PATH_MAX := 512, MICROPY_VFS_POSIX := false }

/-- A small runtime for the examples.  Its world maps each backend object to
its working directory; `chdir` stores its argument when that is a string,
`getcwd` reports what is stored, `ilistdir` hands out the object itself as
an iterator, which is exhausted at once, and every other method returns
`None`. -/
def toy_runtime : Runtime (Nat → List Char) :=
  { call_method := fun w h meth args =>
      match meth, args with
      | MP_QSTR_chdir, [Val.str p] => (.ok Val.none, fun k => if k = h then p else w k)
      | MP_QSTR_getcwd, _ => (.ok (Val.str (w h)), w)
      | MP_QSTR_ilistdir, _ => (.ok (Val.obj h), w)
      | _, _ => (.ok Val.none, w)
    iternext := fun w _ => (.ok none, w)
    subscr := fun w _ _ => (.error Exc.TypeError, w)
    has_protocol := fun _ => false
    proto_import_stat := fun w _ _ => (.ok MP_IMPORT_STAT_NO_EXIST, w)
    posix_file_open := fun w _ _ => (.error Exc.TypeError, w) }

/-- The initial machine state over a table: the current volume is the virtual
root, every backend of the toy runtime is in its own root directory, nothing
has been called. -/
def state0 (T : List mp_vfs_mount_t) : mp_state_vm (Nat → List Char) :=
  { vfs_mount_table := T, vfs_cur := MP_VFS_ROOT, world := fun _ => ['/'], trace := [] }

/-- The path `/usb/f`. -/
def p_usb_f : Val := Val.str ['/', 'u', 's', 'b', '/', 'f']

/-- The path `/flash/g`. -/
def p_flash_g : Val := Val.str ['/', 'f', 'l', 'a', 's', 'h', '/', 'g']

/-- The path `/nope`, below no mount point of the example tables. -/
def p_nope : Val := Val.str ['/', 'n', 'o', 'p', 'e']

/-- The path `/usb/sub` without its leading slash. -/
def q_usb_sub : List Char := ['u', 's', 'b', '/', 's', 'u', 'b']

/-- The path `/usb/sub`. -/
def p_usb_sub : Val := Val.str ('/' :: q_usb_sub)

/-- A runtime in which every call on a backend raises `OSError(2)`. -/
def failing_runtime : Runtime Unit :=
  { call_method := fun w _ _ _ => (.error (Exc.OSError 2), w)
    iternext := fun w _ => (.ok none, w)
    subscr := fun w _ _ => (.error Exc.TypeError, w)
    has_protocol := fun _ => false
    proto_import_stat := fun w _ _ => (.ok MP_IMPORT_STAT_NO_EXIST, w)
    posix_file_open := fun w _ _ => (.error Exc.TypeError, w) }

/-- The initial machine state over a table for `failing_runtime`. -/
def state0_unit (T : List mp_vfs_mount_t) : mp_state_vm Unit :=
  { vfs_mount_table := T, vfs_cur := MP_VFS_ROOT, world := (), trace := [] }

/-- A table in which `/usb/deep` comes first, `/usb` second and `/flash`
third. -/
def table_deep_usb_flash : List mp_vfs_mount_t :=
  [⟨s_usb_deep, 2⟩, ⟨s_usb, 1⟩, ⟨s_flash, 3⟩]

/-- The table `table_deep_usb_flash` with its first and third node swapped. -/
def table_flash_usb_deep : List mp_vfs_mount_t :=
  [⟨s_flash, 3⟩, ⟨s_usb, 1⟩, ⟨s_usb_deep, 2⟩]

/-- The path `/usb/deep/x` without its leading slash. -/
def q_usb_deep_x : List Char := ['u', 's', 'b', '/', 'd', 'e', 'e', 'p', '/', 'x']

/-- The iterator that `mp_vfs_ilistdir` makes for a string path over the
table `T`. -/
def iter0 (T : List mp_vfs_mount_t) : mp_vfs_ilistdir_it_t :=
  { cur := ilistdir_cur.vfs T, is_str := true, is_iter := false }

/-- The iterator over `table_root` after its first `next()`: delegated to
the iterator object 1 of the root backend. -/
def iter_delegated : mp_vfs_ilistdir_it_t :=
  { cur := ilistdir_cur.iter (Val.obj 1), is_str := true, is_iter := true }

/-- The machine state after the first `next()` of the iterator over
`table_root`: the backend's `ilistdir` and the inner `mp_iternext` were
called. -/
def state_after_first_next : mp_state_vm (Nat → List Char) :=
  { state0 table_root with
      trace := [Event.call 1 MP_QSTR_ilistdir [MP_QSTR__slash_], Event.iternext (Val.obj 1)] }

/-- The relative name `nope`, which is below no mount point of the example
tables. -/
def q_nope : List Char := ['n', 'o', 'p', 'e']

/-! # Theorems -/

/-! ## The resolver on absolute paths -/

theorem charAt_eq_headD_drop (s : List Char) (n : Nat) :
    charAt s n = (s.drop n).headD NUL := by
  induction s generalizing n with
  | nil => simp [charAt]
  | cons c s ih =>
    cases n with
    | zero => simp [charAt]
    | succ n => simp [charAt]

theorem strncmp_eq_isPrefixOf (pre : List Char) (hpre : NUL ∉ pre) (q : List Char) :
    strncmp_eq q pre pre.length = pre.isPrefixOf q := by
  induction pre generalizing q with
  | nil => simp [strncmp_eq]
  | cons c pre ih =>
    have hc : c ≠ NUL := fun h => hpre (by simp [h])
    have hpre1 : NUL ∉ pre := fun h => hpre (List.mem_cons_of_mem _ h)
    cases q with
    | nil =>
      simp [strncmp_eq, charAt, List.isPrefixOf]
      exact fun h => hc h.symm
    | cons d q =>
      by_cases hdc : d = c
      · subst hdc
        simp [strncmp_eq, charAt, List.isPrefixOf, hc, ih hpre1 q]
      · have hcd : ¬ c = d := fun h => hdc h.symm
        simp [strncmp_eq, charAt, List.isPrefixOf, hdc, hcd]

theorem wf_len_pred_eq_zero (vfs : mp_vfs_mount_t) (h : vfs.wf) :
    vfs.len - 1 = 0 ↔ vfs.str = ['/'] := by
  obtain ⟨hh, _⟩ := h
  unfold mp_vfs_mount_t.len
  cases hs : vfs.str with
  | nil => simp [hs] at hh
  | cons c r =>
    rw [hs] at hh
    simp at hh
    subst hh
    cases r <;> simp

/-- One turn of the loop of the resolver agrees with the boundary match. -/
theorem lookup_loop_cons (q : List Char) (is_abs : Bool) (vfs : mp_vfs_mount_t)
    (next : List mp_vfs_mount_t) (hvfs : vfs.wf) (hq : NUL ∉ q) :
    lookup_loop q is_abs (vfs :: next) =
      if boundary_matches vfs q then
        some (vfs,
          if vfs.str = ['/'] then ptr_back q is_abs
          else if q.drop (vfs.len - 1) = [] then ['/'] else q.drop (vfs.len - 1))
      else lookup_loop q is_abs next := by
  have hlen := wf_len_pred_eq_zero vfs hvfs
  have hpre : NUL ∉ vfs.str.drop 1 := fun h => hvfs.2 (List.mem_of_mem_drop h)
  have hdl : (vfs.str.drop 1).length = vfs.len - 1 := by
    simp [mp_vfs_mount_t.len]
  by_cases hroot : vfs.str = ['/']
  · have h0 : vfs.len - 1 = 0 := hlen.2 hroot
    simp [lookup_loop, boundary_matches, h0, hroot]
  · have h0 : ¬ (vfs.len - 1 = 0) := fun h => hroot (hlen.1 h)
    have hs := strncmp_eq_isPrefixOf (vfs.str.drop 1) hpre q
    rw [hdl] at hs
    rw [lookup_loop]
    simp only [h0, if_false, hs, boundary_matches, hroot, decide_False, Bool.false_or, hdl,
      charAt_eq_headD_drop]
    cases hp : (vfs.str.drop 1).isPrefixOf q with
    | false => simp
    | true =>
      cases hd : q.drop (vfs.len - 1) with
      | nil => simp [NUL]
      | cons c r =>
        have hcq : c ∈ q := List.mem_of_mem_drop (by rw [hd]; simp)
        have hc : c ≠ NUL := fun h => hq (h ▸ hcq)
        by_cases hsl : c = '/'
        · simp [hsl]
        · simp [hsl, hc]

/-- The loop of the resolver returns the first node that boundary-matches. -/
theorem lookup_loop_fst (q : List Char) (is_abs : Bool) (T : List mp_vfs_mount_t)
    (hT : tableWf T) (hq : NUL ∉ q) :
    (lookup_loop q is_abs T).map Prod.fst = T.find? (fun vfs => boundary_matches vfs q) := by
  induction T with
  | nil => simp [lookup_loop]
  | cons vfs next ih =>
    have hvfs : vfs.wf := hT vfs (by simp)
    have hnext : tableWf next := fun v hv => hT v (List.mem_cons_of_mem _ hv)
    rw [lookup_loop_cons q is_abs vfs next hvfs hq, List.find?_cons]
    cases hb : boundary_matches vfs q with
    | true => simp
    | false => simp [ih hnext]

theorem charAt_zero_ne_NUL (q : List Char) (hne : q ≠ []) (hq : NUL ∉ q) :
    charAt q 0 ≠ NUL := by
  cases q with
  | nil => exact absurd rfl hne
  | cons c r =>
    intro h
    apply hq
    simp [charAt] at h
    simp [h]

/-- The resolver on the absolute path `/q`, `q` not empty: the first node of
the table that boundary-matches, `MP_VFS_NONE` when there is none. -/
theorem lookup_absolute (T : List mp_vfs_mount_t) (cur : mp_vfs_mount_ptr) (q : List Char)
    (hT : tableWf T) (hne : q ≠ []) (hq : NUL ∉ q) :
    (mp_vfs_lookup_path T cur ('/' :: q)).1 =
      match T.find? (fun vfs => boundary_matches vfs q) with
      | some vfs => node vfs
      | none => MP_VFS_NONE := by
  have h0 := charAt_zero_ne_NUL q hne hq
  have hl := lookup_loop_fst q true T hT hq
  unfold mp_vfs_lookup_path
  simp only [charAt, List.getD_cons_zero, true_or, if_true, decide_True, List.drop_succ_cons,
    List.drop_zero]
  simp only [charAt] at h0
  rw [if_neg h0, ← hl]
  cases lookup_loop q true T with
  | none => simp
  | some r => simp


theorem boundary_matches_iff (vfs : mp_vfs_mount_t) (q : List Char) :
    boundary_matches vfs q = true ↔
      vfs.str = ['/'] ∨
        ∃ r, q = vfs.str.drop 1 ++ r ∧ (r = [] ∨ ∃ r1, r = '/' :: r1) := by
  unfold boundary_matches
  rw [Bool.or_eq_true, Bool.and_eq_true, decide_eq_true_eq, List.isPrefixOf_iff_prefix]
  constructor
  · rintro (h | ⟨⟨r, hr⟩, h2⟩)
    · exact Or.inl h
    · refine Or.inr ⟨r, hr.symm, ?_⟩
      rw [← hr, List.drop_left] at h2
      cases r with
      | nil => exact Or.inl rfl
      | cons c r1 =>
        simp at h2
        exact Or.inr ⟨r1, by rw [h2]⟩
  · rintro (h | ⟨r, hr, h2⟩)
    · exact Or.inl h
    · refine Or.inr ⟨⟨r, hr.symm⟩, ?_⟩
      rw [hr, List.drop_left]
      rcases h2 with h2 | ⟨r1, h2⟩ <;> simp [h2]

/-- C1: on an absolute path `/q` with `q` not empty the resolver returns the
first node of the mount table, in table order, that boundary-matches the
path, and `MP_VFS_NONE` when no node does; a node that matches wins over
every later node, whatever the later mount points are. -/
theorem C1_resolve_first_boundary_match (T : List mp_vfs_mount_t) (cur : mp_vfs_mount_ptr)
    (q : List Char) (hT : tableWf T) (hne : q ≠ []) (hq : NUL ∉ q) :
    ((mp_vfs_lookup_path T cur ('/' :: q)).1 =
      match T.find? (fun vfs => boundary_matches vfs q) with
      | some vfs => node vfs
      | none => MP_VFS_NONE) ∧
    (∀ l1 e l2, T = l1 ++ e :: l2 → boundary_matches e q = true →
      (∀ x ∈ l1, boundary_matches x q = false) →
      (mp_vfs_lookup_path T cur ('/' :: q)).1 = node e) ∧
    ((∀ x ∈ T, boundary_matches x q = false) →
      (mp_vfs_lookup_path T cur ('/' :: q)).1 = MP_VFS_NONE) := by
  have h := lookup_absolute T cur q hT hne hq
  refine ⟨h, ?_, ?_⟩
  · intro l1 e l2 hTe he hl1
    have hf : T.find? (fun vfs => boundary_matches vfs q) = some e := by
      rw [List.find?_eq_some]
      exact ⟨he, l1, l2, hTe, fun a ha => by simp [hl1 a ha]⟩
    rw [h, hf]
  · intro hall
    have hf : T.find? (fun vfs => boundary_matches vfs q) = none := by
      rw [List.find?_eq_none]
      intro x hx
      simp [hall x hx]
    rw [h, hf]

/-- C1, on `/usb/deep/x` in a table that lists `/usb` before `/usb/deep`: the
earlier, shorter mount point wins. -/
theorem C1_resolve_first_boundary_match_witness :
    tableWf table_overlap ∧
    (mp_vfs_lookup_path table_overlap MP_VFS_ROOT
        ('/' :: ['u', 's', 'b', '/', 'd', 'e', 'e', 'p', '/', 'x'])).1
      = node ⟨s_usb, 1⟩ := by
  refine ⟨by decide, ?_⟩
  exact (C1_resolve_first_boundary_match table_overlap MP_VFS_ROOT
    ['u', 's', 'b', '/', 'd', 'e', 'e', 'p', '/', 'x'] (by decide) (by decide) (by decide)).1.trans
    (by decide)

theorem cons_tail_of_head (P : List Char) (h : P.head? = some '/') : P = '/' :: P.tail := by
  cases P with
  | nil => simp at h
  | cons c r =>
    simp at h
    simp [h]

/-- A node that does not boundary-match an absolute path is not what the
resolver returns for it. -/
theorem lookup_absolute_ne (T : List mp_vfs_mount_t) (cur : mp_vfs_mount_ptr) (q : List Char)
    (hT : tableWf T) (hne : q ≠ []) (hq : NUL ∉ q) (e : mp_vfs_mount_t)
    (he : boundary_matches e q = false) :
    (mp_vfs_lookup_path T cur ('/' :: q)).1 ≠ node e := by
  rw [lookup_absolute T cur q hT hne hq]
  cases hf : T.find? (fun vfs => boundary_matches vfs q) with
  | none => simp
  | some v =>
    have hv := List.find?_some hf
    simp only [ne_eq, node.injEq]
    intro hve
    subst hve
    simp [he] at hv

/-- A mount point `P` other than `/` does not boundary-match a path that goes
on after `P` with a character that is neither `/` nor the end. -/
theorem boundary_matches_false_of_next (P : List Char) (obj : Nat) (c : Char)
    (rest : List Char) (hroot : P ≠ ['/']) (hc : c ≠ '/') :
    boundary_matches ⟨P, obj⟩ (P.drop 1 ++ c :: rest) = false := by
  simp [boundary_matches, hroot, hc]

/-- C2: a node mounted at `/data` is never the result for `/database/x`, the
result is `MP_VFS_NONE` when no other node matches, and in general a node
with a mount point `P` other than `/` is never the result for an absolute
path in which `P` is followed by a character other than `/` or the end. -/
theorem C2_mount_point_boundary (T : List mp_vfs_mount_t) (cur : mp_vfs_mount_ptr)
    (hT : tableWf T) :
    (∀ obj, (mp_vfs_lookup_path T cur ('/' :: q_database_x)).1 ≠ node ⟨s_data, obj⟩) ∧
    ((∀ v ∈ T, v.str ≠ s_data → boundary_matches v q_database_x = false) →
      (mp_vfs_lookup_path T cur ('/' :: q_database_x)).1 = MP_VFS_NONE) ∧
    (∀ (P : List Char) (obj : Nat) (c : Char) (rest : List Char),
      P.head? = some '/' → NUL ∉ P → P ≠ ['/'] → c ≠ '/' → c ≠ NUL → NUL ∉ rest →
      (mp_vfs_lookup_path T cur (P ++ c :: rest)).1 ≠ node ⟨P, obj⟩) := by
  have hgen : ∀ (P : List Char) (obj : Nat) (c : Char) (rest : List Char),
      P.head? = some '/' → NUL ∉ P → P ≠ ['/'] → c ≠ '/' → c ≠ NUL → NUL ∉ rest →
      (mp_vfs_lookup_path T cur (P ++ c :: rest)).1 ≠ node ⟨P, obj⟩ := by
    intro P obj c rest hh hP hroot hc hc0 hrest
    have hPt := cons_tail_of_head P hh
    have hpath : P ++ c :: rest = '/' :: (P.drop 1 ++ c :: rest) := by
      rw [List.drop_one]
      conv_lhs => rw [hPt]
      rfl
    rw [hpath]
    apply lookup_absolute_ne T cur _ hT (by simp)
    · intro hmem
      rcases List.mem_append.1 hmem with h | h
      · exact hP (List.mem_of_mem_drop h)
      · rcases List.mem_cons.1 h with h | h
        · exact hc0 h.symm
        · exact hrest h
    · exact boundary_matches_false_of_next P obj c rest hroot hc
  refine ⟨?_, ?_, hgen⟩
  · intro obj
    exact hgen s_data obj 'b' ['a', 's', 'e', '/', 'x'] (by decide) (by decide) (by decide)
      (by decide) (by decide) (by decide)
  · intro hall
    rw [lookup_absolute T cur q_database_x hT (by decide) (by decide)]
    have hf : T.find? (fun vfs => boundary_matches vfs q_database_x) = none := by
      rw [List.find?_eq_none]
      intro x hx
      by_cases hxs : x.str = s_data
      · have : boundary_matches x q_database_x = false := by
          simp [boundary_matches, hxs]
          decide
        simp [this]
      · simp [hall x hx hxs]
    rw [hf]

/-- C2, on the table whose only mount point is `/data`: `/database/x` is not
found. -/
theorem C2_mount_point_boundary_witness :
    tableWf table_data ∧
    (mp_vfs_lookup_path table_data MP_VFS_ROOT ('/' :: q_database_x)).1 = MP_VFS_NONE :=
  ⟨by decide,
   (C2_mount_point_boundary table_data MP_VFS_ROOT (by decide)).2.1 (by decide)⟩

/-- C3, the claim fails: with a backend mounted at `/` the resolver still
returns `MP_VFS_ROOT` for the path `/`, not that node with remainder `/`. -/
theorem C3_root_mounted_counterexample :
    mp_vfs_lookup_path table_root MP_VFS_ROOT ['/'] = (MP_VFS_ROOT, none) ∧
    mp_vfs_lookup_path table_root MP_VFS_ROOT ['/'] ≠ (node ⟨['/'], 1⟩, some ['/']) := by
  decide

/-- C3, amended: for every mount table and every current volume, whether or
not a node is mounted at `/`, resolving `/` yields `MP_VFS_ROOT` and leaves
the remainder undefined. -/
theorem C3_resolve_slash_is_root (T : List mp_vfs_mount_t) (cur : mp_vfs_mount_ptr) :
    mp_vfs_lookup_path T cur ['/'] = (MP_VFS_ROOT, none) := by
  simp [mp_vfs_lookup_path, charAt]

/-- C4, the claim fails: when the current volume is the node mounted at
`/usb`, the empty path resolves to that node with the empty remainder, not to
`MP_VFS_ROOT`. -/
theorem C4_empty_path_counterexample :
    mp_vfs_lookup_path table_usb_flash (node ⟨s_usb, 1⟩) [] = (node ⟨s_usb, 1⟩, some []) ∧
    (mp_vfs_lookup_path table_usb_flash (node ⟨s_usb, 1⟩) []).1 ≠ MP_VFS_ROOT := by
  decide

/-- C4, amended: the empty path resolves to `MP_VFS_ROOT` when the current
volume is `MP_VFS_ROOT`, and to the current node with the empty remainder,
without a look at the table, when the current volume is a node. -/
theorem C4_resolve_empty_path (T : List mp_vfs_mount_t) :
    mp_vfs_lookup_path T MP_VFS_ROOT [] = (MP_VFS_ROOT, none) ∧
    ∀ e : mp_vfs_mount_t, mp_vfs_lookup_path T (node e) [] = (node e, some []) := by
  constructor
  · simp [mp_vfs_lookup_path, charAt]
  · intro e
    simp [mp_vfs_lookup_path, charAt, NUL]

/-! ## The dispatcher on the sentinels -/

theorem lookup_path_of_resolves_NONE {σ : Type} (s : mp_state_vm σ) (p po : Val)
    (h : resolves_to s p MP_VFS_NONE) : lookup_path s p po = .ok (MP_VFS_NONE, po) := by
  obtain ⟨path, hp, hl⟩ := h
  simp only [lookup_path, hp]
  rcases hr : mp_vfs_lookup_path s.vfs_mount_table s.vfs_cur path with ⟨v, o⟩
  rw [hr] at hl
  simp only at hl
  subst hl
  rfl

theorem lookup_path_of_resolves_ROOT {σ : Type} (s : mp_state_vm σ) (p po : Val)
    (h : resolves_to s p MP_VFS_ROOT) : lookup_path s p po = .ok (MP_VFS_ROOT, po) := by
  obtain ⟨path, hp, hl⟩ := h
  simp only [lookup_path, hp]
  rcases hr : mp_vfs_lookup_path s.vfs_mount_table s.vfs_cur path with ⟨v, o⟩
  rw [hr] at hl
  simp only at hl
  subst hl
  rfl

theorem lookup_path_of_resolves {σ : Type} (s : mp_state_vm σ) (p po : Val)
    (t : mp_vfs_mount_ptr) (h : resolves_to s p t) :
    ∃ po1, lookup_path s p po = .ok (t, po1) := by
  obtain ⟨path, hp, hl⟩ := h
  simp only [lookup_path, hp]
  rcases hr : mp_vfs_lookup_path s.vfs_mount_table s.vfs_cur path with ⟨v, o⟩
  rw [hr] at hl
  simp only at hl
  subst hl
  cases v with
  | MP_VFS_NONE => exact ⟨po, rfl⟩
  | MP_VFS_ROOT => exact ⟨po, rfl⟩
  | node vfs =>
    cases o with
    | none => exact ⟨po, rfl⟩
    | some out => exact ⟨_, rfl⟩

theorem resolves_to_is_string {σ : Type} (s : mp_state_vm σ) (p : Val) (t : mp_vfs_mount_ptr)
    (h : resolves_to s p t) : (∃ d, p = Val.str d) ∨ (∃ d, p = Val.bytes d) := by
  obtain ⟨path, hp, _⟩ := h
  cases p <;> simp [mp_obj_str_get_str] at hp
  · exact Or.inl ⟨_, rfl⟩
  · exact Or.inr ⟨_, rfl⟩

/-- After argument parsing `mp_vfs_open` on a string is the look-up followed
by the proxy call, whatever `MICROPY_VFS_POSIX` is. -/
theorem mp_vfs_open_of_string {σ : Type} (K : Config) (R : Runtime σ) (s : mp_state_vm σ)
    (file mode : Val) (hf : (∃ d, file = Val.str d) ∨ (∃ d, file = Val.bytes d)) :
    mp_vfs_open K R file mode s =
      match lookup_path s file file with
      | .error e => (.error e, s)
      | .ok (vfs, file1) => mp_vfs_proxy_call K R vfs MP_QSTR_open [file1, mode] s := by
  rcases hf with ⟨d, rfl⟩ | ⟨d, rfl⟩ <;> cases hK : K.MICROPY_VFS_POSIX <;>
    simp [mp_vfs_open, hK]

/-- C5: `mp_vfs_rename` resolves both paths in the same state, and when the
two targets differ it raises `OSError(MP_EPERM)` and leaves the machine state
as it was: no backend was called, nothing was copied or deleted. -/
theorem C5_rename_across_targets {σ : Type} (K : Config) (R : Runtime σ) (s : mp_state_vm σ)
    (old_path_in new_path_in : Val) (old_vfs new_vfs : mp_vfs_mount_ptr)
    (hold : resolves_to s old_path_in old_vfs) (hnew : resolves_to s new_path_in new_vfs)
    (hne : old_vfs ≠ new_vfs) :
    mp_vfs_rename K R old_path_in new_path_in s = (.error (Exc.OSError K.MP_EPERM), s) := by
  obtain ⟨a0, h0⟩ := lookup_path_of_resolves s old_path_in Val.none old_vfs hold
  obtain ⟨a1, h1⟩ := lookup_path_of_resolves s new_path_in Val.none new_vfs hnew
  simp [mp_vfs_rename, h0, h1, hne]

/-- C5, renaming `/usb/f` to `/flash/g` with `/usb` and `/flash` mounted. -/
theorem C5_rename_across_targets_witness :
    resolves_to (state0 table_usb_flash) p_usb_f (node ⟨s_usb, 1⟩) ∧
    resolves_to (state0 table_usb_flash) p_flash_g (node ⟨s_flash, 2⟩) ∧
    mp_vfs_rename config_std toy_runtime p_usb_f p_flash_g (state0 table_usb_flash)
      = (.error (Exc.OSError 1), state0 table_usb_flash) :=
  ⟨⟨_, rfl, by decide⟩, ⟨_, rfl, by decide⟩,
   C5_rename_across_targets config_std toy_runtime (state0 table_usb_flash) p_usb_f p_flash_g
     (node ⟨s_usb, 1⟩) (node ⟨s_flash, 2⟩) ⟨_, rfl, by decide⟩ ⟨_, rfl, by decide⟩ (by decide)⟩

/-- C9: when the path resolves to `MP_VFS_NONE`, each of open, stat, statvfs,
mkdir, rmdir, remove, chdir, ilistdir, listdir, and rename to a second such
path, raises `OSError(MP_ENODEV)` and calls no backend: the world of the
backends and the trace are as before (for all but chdir the whole machine
state is). -/
theorem C9_not_found_raises_ENODEV {σ : Type} (K : Config) (R : Runtime σ) (s : mp_state_vm σ)
    (path_in : Val) (h : resolves_to s path_in MP_VFS_NONE) :
    (∀ mode, mp_vfs_open K R path_in mode s = (.error (Exc.OSError K.MP_ENODEV), s)) ∧
    mp_vfs_stat K R path_in s = (.error (Exc.OSError K.MP_ENODEV), s) ∧
    mp_vfs_statvfs K R path_in s = (.error (Exc.OSError K.MP_ENODEV), s) ∧
    mp_vfs_mkdir K R path_in s = (.error (Exc.OSError K.MP_ENODEV), s) ∧
    mp_vfs_rmdir K R path_in s = (.error (Exc.OSError K.MP_ENODEV), s) ∧
    mp_vfs_remove K R path_in s = (.error (Exc.OSError K.MP_ENODEV), s) ∧
    ((mp_vfs_chdir K R path_in s).1 = .error (Exc.OSError K.MP_ENODEV) ∧
      (mp_vfs_chdir K R path_in s).2.trace = s.trace ∧
      (mp_vfs_chdir K R path_in s).2.world = s.world) ∧
    mp_vfs_ilistdir K R (some path_in) s = (.error (Exc.OSError K.MP_ENODEV), s) ∧
    (∀ fuel, mp_vfs_listdir K R fuel (some path_in) s
      = some (.error (Exc.OSError K.MP_ENODEV), s)) ∧
    (∀ new_path_in, resolves_to s new_path_in MP_VFS_NONE →
      mp_vfs_rename K R path_in new_path_in s = (.error (Exc.OSError K.MP_ENODEV), s)) := by
  have hl := lookup_path_of_resolves_NONE s path_in
  have hil : mp_vfs_ilistdir K R (some path_in) s = (.error (Exc.OSError K.MP_ENODEV), s) := by
    simp [mp_vfs_ilistdir, hl _ h, mp_vfs_proxy_call]
  refine ⟨?_, ?_, ?_, ?_, ?_, ?_, ?_, hil, ?_, ?_⟩
  · intro mode
    rw [mp_vfs_open_of_string K R s path_in mode (resolves_to_is_string s path_in _ h), hl _ h]
    rfl
  · simp [mp_vfs_stat, hl _ h, mp_vfs_proxy_call]
  · simp [mp_vfs_statvfs, hl _ h, mp_vfs_proxy_call]
  · simp [mp_vfs_mkdir, hl _ h, mp_vfs_proxy_call]
  · simp [mp_vfs_rmdir, hl _ h, mp_vfs_proxy_call]
  · simp [mp_vfs_remove, hl _ h, mp_vfs_proxy_call]
  · simp [mp_vfs_chdir, hl _ h, mp_vfs_proxy_call]
  · intro fuel
    simp [mp_vfs_listdir, hil]
  · intro new_path_in hnew
    simp [mp_vfs_rename, hl _ h, lookup_path_of_resolves_NONE s new_path_in _ hnew,
      mp_vfs_proxy_call]

/-- C9, on the path `/nope` with `/usb` and `/flash` mounted. -/
theorem C9_not_found_raises_ENODEV_witness :
    resolves_to (state0 table_usb_flash) p_nope MP_VFS_NONE ∧
    mp_vfs_remove config_std toy_runtime p_nope (state0 table_usb_flash)
      = (.error (Exc.OSError 19), state0 table_usb_flash) :=
  ⟨⟨_, rfl, by decide⟩,
   (C9_not_found_raises_ENODEV config_std toy_runtime (state0 table_usb_flash) p_nope
     ⟨_, rfl, by decide⟩).2.2.2.2.2.1⟩

/-- C10: when the path resolves to `MP_VFS_ROOT`, whatever the mount table
holds, each of open, remove, rmdir, and rename to a second such path, raises
`OSError(MP_EPERM)` and leaves the machine state as it was, so no backend is
called. -/
theorem C10_virtual_root_raises_EPERM {σ : Type} (K : Config) (R : Runtime σ)
    (s : mp_state_vm σ) (path_in : Val) (h : resolves_to s path_in MP_VFS_ROOT) :
    (∀ mode, mp_vfs_open K R path_in mode s = (.error (Exc.OSError K.MP_EPERM), s)) ∧
    mp_vfs_remove K R path_in s = (.error (Exc.OSError K.MP_EPERM), s) ∧
    mp_vfs_rmdir K R path_in s = (.error (Exc.OSError K.MP_EPERM), s) ∧
    (∀ new_path_in, resolves_to s new_path_in MP_VFS_ROOT →
      mp_vfs_rename K R path_in new_path_in s = (.error (Exc.OSError K.MP_EPERM), s)) := by
  have hl := lookup_path_of_resolves_ROOT s path_in
  refine ⟨?_, ?_, ?_, ?_⟩
  · intro mode
    rw [mp_vfs_open_of_string K R s path_in mode (resolves_to_is_string s path_in _ h), hl _ h]
    rfl
  · simp [mp_vfs_remove, hl _ h, mp_vfs_proxy_call]
  · simp [mp_vfs_rmdir, hl _ h, mp_vfs_proxy_call]
  · intro new_path_in hnew
    simp [mp_vfs_rename, hl _ h, lookup_path_of_resolves_ROOT s new_path_in _ hnew,
      mp_vfs_proxy_call]

/-- C10, on the path `/` with a backend mounted at `/`. -/
theorem C10_virtual_root_raises_EPERM_witness :
    resolves_to (state0 table_root) MP_QSTR__slash_ MP_VFS_ROOT ∧
    mp_vfs_remove config_std toy_runtime MP_QSTR__slash_ (state0 table_root)
      = (.error (Exc.OSError 1), state0 table_root) :=
  ⟨⟨_, rfl, by decide⟩,
   (C10_virtual_root_raises_EPERM config_std toy_runtime (state0 table_root) MP_QSTR__slash_
     ⟨_, rfl, by decide⟩).2.1⟩

/-! ## The virtual root: `statvfs` and `getcwd` -/

theorem wf_len_eq_one (vfs : mp_vfs_mount_t) (h : vfs.wf) :
    vfs.len = 1 ↔ vfs.str = ['/'] := by
  obtain ⟨hh, _⟩ := h
  unfold mp_vfs_mount_t.len
  cases hs : vfs.str with
  | nil => simp [hs] at hh
  | cons c r =>
    rw [hs] at hh
    simp at hh
    subst hh
    cases r <;> simp

/-- The walk to the first node with `len == 1` finds the first node mounted
at `/`. -/
theorem first_root_mount_eq_find (T : List mp_vfs_mount_t) (hT : tableWf T) :
    first_root_mount T = T.find? (fun v => decide (v.str = ['/'])) := by
  induction T with
  | nil => rfl
  | cons vfs next ih =>
    have hvfs : vfs.wf := hT vfs (by simp)
    have hnext : tableWf next := fun v hv => hT v (List.mem_cons_of_mem _ hv)
    rw [first_root_mount, List.find?_cons, ih hnext]
    by_cases h : vfs.str = ['/']
    · simp [h, (wf_len_eq_one vfs hvfs).2 h]
    · have h1 : ¬ vfs.len = 1 := fun hl => h ((wf_len_eq_one vfs hvfs).1 hl)
      simp [h, h1]

/-- C8: `mp_vfs_statvfs` on a path that resolves to `MP_VFS_ROOT`.  With no
node mounted at `/` it returns, in an unchanged machine state (no backend is
called), the 10-tuple whose first nine items are 0 and whose last item is
`MICROPY_ALLOC_PATH_MAX`, positive when that constant is; with a node
mounted at `/` the call is the `statvfs` method of the first such node's
backend on the path `/`. -/
theorem C8_statvfs_virtual_root {σ : Type} (K : Config) (R : Runtime σ) (s : mp_state_vm σ)
    (path_in : Val) (hT : tableWf s.vfs_mount_table) (h : resolves_to s path_in MP_VFS_ROOT)
    (hpos : 0 < K.MICROPY_ALLOC_PATH_MAX) :
    ((∀ v ∈ s.vfs_mount_table, v.str ≠ ['/']) →
      ∃ namemax : Int, 0 < namemax ∧ namemax = K.MICROPY_ALLOC_PATH_MAX ∧
        mp_vfs_statvfs K R path_in s =
          (.ok (Val.tuple [Val.int 0, Val.int 0, Val.int 0, Val.int 0, Val.int 0, Val.int 0,
                           Val.int 0, Val.int 0, Val.int 0, Val.int namemax]), s)) ∧
    (∀ l1 v l2, s.vfs_mount_table = l1 ++ v :: l2 → v.str = ['/'] →
      (∀ x ∈ l1, x.str ≠ ['/']) →
      mp_vfs_statvfs K R path_in s =
        ((R.call_method s.world v.obj MP_QSTR_statvfs [MP_QSTR__slash_]).1,
         { s with world := (R.call_method s.world v.obj MP_QSTR_statvfs [MP_QSTR__slash_]).2,
                  trace := s.trace ++ [Event.call v.obj MP_QSTR_statvfs [MP_QSTR__slash_]] })) := by
  have hl := lookup_path_of_resolves_ROOT s path_in Val.none h
  have hfr := first_root_mount_eq_find s.vfs_mount_table hT
  constructor
  · intro hno
    have hf : s.vfs_mount_table.find? (fun v => decide (v.str = ['/'])) = none := by
      rw [List.find?_eq_none]
      intro x hx
      simp [hno x hx]
    refine ⟨K.MICROPY_ALLOC_PATH_MAX, hpos, rfl, ?_⟩
    simp [mp_vfs_statvfs, hl, hfr, hf, List.replicate]
  · intro l1 v l2 hTe hv hl1
    have hf : s.vfs_mount_table.find? (fun v => decide (v.str = ['/'])) = some v := by
      rw [List.find?_eq_some]
      exact ⟨by simp [hv], l1, l2, hTe, fun a ha => by simp [hl1 a ha]⟩
    simp [mp_vfs_statvfs, hl, hfr, hf, mp_vfs_proxy_call]

/-- C8, on the path `/` with `/usb` and `/flash` mounted and nothing at the
root. -/
theorem C8_statvfs_virtual_root_witness :
    tableWf (state0 table_usb_flash).vfs_mount_table ∧
    resolves_to (state0 table_usb_flash) MP_QSTR__slash_ MP_VFS_ROOT ∧
    (0 : Int) < config_std.MICROPY_ALLOC_PATH_MAX ∧
    ∃ namemax : Int, 0 < namemax ∧ namemax = config_std.MICROPY_ALLOC_PATH_MAX ∧
      mp_vfs_statvfs config_std toy_runtime MP_QSTR__slash_ (state0 table_usb_flash) =
        (.ok (Val.tuple [Val.int 0, Val.int 0, Val.int 0, Val.int 0, Val.int 0, Val.int 0,
                         Val.int 0, Val.int 0, Val.int 0, Val.int namemax]),
         state0 table_usb_flash) :=
  ⟨by decide, ⟨_, rfl, by decide⟩, by decide,
   (C8_statvfs_virtual_root config_std toy_runtime (state0 table_usb_flash) MP_QSTR__slash_
     (by decide) ⟨_, rfl, by decide⟩ (by decide)).1 (by decide)⟩

theorem slash_test_iff (c : List Char) :
    (charAt c 0 = '/' ∧ charAt c 1 = NUL) ↔ cstr c = ['/'] := by
  have hs : ('/' : Char) ≠ NUL := by decide
  cases c with
  | nil => simp [charAt, cstr, NUL]
  | cons a r =>
    cases r with
    | nil =>
      by_cases ha : a = NUL
      · subst ha
        simp [charAt, cstr, NUL]
      · by_cases ha2 : a = '/'
        · subst ha2
          simp [charAt, cstr, NUL]
        · simp [charAt, cstr, ha, ha2]
    | cons b r =>
      by_cases ha : a = NUL
      · subst ha
        simp [charAt, cstr, NUL]
      · by_cases hb : b = NUL
        · subst hb
          simp [charAt, cstr, ha, List.takeWhile]
        · simp [charAt, cstr, ha, hb, List.takeWhile]

/-- The function `mp_vfs_getcwd` when the current volume is a node whose
backend answers `getcwd` with `cwd_o`. -/
theorem mp_vfs_getcwd_node {σ : Type} (K : Config) (R : Runtime σ) (s : mp_state_vm σ)
    (e : mp_vfs_mount_t) (hcur : s.vfs_cur = node e) (he : e.wf) (cwd_o : Val) (w : σ)
    (hcall : R.call_method s.world e.obj MP_QSTR_getcwd [] = (.ok cwd_o, w)) :
    (e.str = ['/'] → mp_vfs_getcwd K R s =
      (.ok cwd_o,
       { s with world := w, trace := s.trace ++ [Event.call e.obj MP_QSTR_getcwd []] })) ∧
    (e.str ≠ ['/'] → ∀ c, mp_obj_str_get_str cwd_o = .ok c →
      mp_vfs_getcwd K R s =
        (.ok (Val.str (if cstr c = ['/'] then e.str else e.str ++ cstr c)),
         { s with world := w, trace := s.trace ++ [Event.call e.obj MP_QSTR_getcwd []] })) := by
  have hlen := wf_len_eq_one e he
  constructor
  · intro hroot
    simp [mp_vfs_getcwd, hcur, mp_vfs_proxy_call, hcall, hlen.2 hroot]
  · intro hroot c hc
    have h1 : ¬ e.len = 1 := fun h => hroot (hlen.1 h)
    simp only [mp_vfs_getcwd, hcur, mp_vfs_proxy_call, hcall, h1, hc, slash_test_iff]
    by_cases hsl : cstr c = ['/'] <;> simp [hsl]

theorem cstr_eq_self (c : List Char) (h : NUL ∉ c) : cstr c = c := by
  unfold cstr
  rw [List.takeWhile_eq_self_iff]
  intro x hx
  simp only [ne_eq, decide_eq_true_eq]
  exact fun hxn => h (hxn ▸ hx)

/-- A successful `mp_vfs_chdir` on an absolute path that resolves to a node
leaves that node as the current volume and the mount table as it was. -/
theorem mp_vfs_chdir_ok_node {σ : Type} (K : Config) (R : Runtime σ) (s s1 : mp_state_vm σ)
    (path_in v : Val) (e : mp_vfs_mount_t) (hres : resolves_to s path_in (node e))
    (hok : mp_vfs_chdir K R path_in s = (.ok v, s1)) :
    s1.vfs_cur = node e ∧ s1.vfs_mount_table = s.vfs_mount_table := by
  obtain ⟨po, hl⟩ := lookup_path_of_resolves s path_in Val.none (node e) hres
  simp only [mp_vfs_chdir, hl, mp_vfs_proxy_call] at hok
  rw [if_neg (by simp)] at hok
  split at hok
  · simp at hok
  · rename_i heq
    simp only [Prod.mk.injEq] at hok heq
    rw [← hok.2, ← heq.2]
    exact ⟨rfl, rfl⟩

/-- C7, the claim fails: in a table that lists the backend mounted at `/`
before `/usb`, `chdir` to `/usb/sub` succeeds through the root backend, and
`getcwd` then returns that backend's answer `/usb/sub` unchanged; it is not
`/usb` joined with what the `/usb` backend reports, which is `/`. -/
theorem C7_chdir_getcwd_counterexample :
    (⟨s_usb, 2⟩ : mp_vfs_mount_t) ∈ table_root_usb ∧
    (mp_vfs_chdir config_std toy_runtime p_usb_sub (state0 table_root_usb)).1 = .ok Val.none ∧
    (toy_runtime.call_method
        (mp_vfs_chdir config_std toy_runtime p_usb_sub (state0 table_root_usb)).2.world
        2 MP_QSTR_getcwd []).1 = .ok (Val.str ['/']) ∧
    (mp_vfs_getcwd config_std toy_runtime
        (mp_vfs_chdir config_std toy_runtime p_usb_sub (state0 table_root_usb)).2).1
      = .ok (Val.str ('/' :: q_usb_sub)) ∧
    (mp_vfs_getcwd config_std toy_runtime
        (mp_vfs_chdir config_std toy_runtime p_usb_sub (state0 table_root_usb)).2).1
      ≠ .ok (Val.str s_usb) := by
  refine ⟨by decide, rfl, rfl, rfl, ?_⟩
  have h : (mp_vfs_getcwd config_std toy_runtime
      (mp_vfs_chdir config_std toy_runtime p_usb_sub (state0 table_root_usb)).2).1
      = .ok (Val.str ('/' :: q_usb_sub)) := rfl
  rw [h]
  simp [s_usb, q_usb_sub]

/-- C7, amended: `mp_vfs_getcwd` returns `/` without a backend call when the
current volume is `MP_VFS_ROOT`; for a node mounted at `/` it returns the
backend's `getcwd` result unchanged; for a node with another mount point `P`
and a backend result with C string `c` it returns `P` when `c` is `/` and
`P ++ c` otherwise.  Hence after a successful `chdir` to `/usb/sub`, in a
table whose first node that boundary-matches `/usb/sub` is mounted at `/usb`,
`getcwd` is `/usb` when that backend reports `/` and `/usb ++ c` otherwise. -/
theorem C7_getcwd_joins_mount_point {σ : Type} (K : Config) (R : Runtime σ)
    (s : mp_state_vm σ) :
    (s.vfs_cur = MP_VFS_ROOT → mp_vfs_getcwd K R s = (.ok MP_QSTR__slash_, s)) ∧
    (∀ (e : mp_vfs_mount_t) (cwd_o : Val) (w : σ), s.vfs_cur = node e → e.wf →
      R.call_method s.world e.obj MP_QSTR_getcwd [] = (.ok cwd_o, w) →
      (e.str = ['/'] → mp_vfs_getcwd K R s =
        (.ok cwd_o,
         { s with world := w, trace := s.trace ++ [Event.call e.obj MP_QSTR_getcwd []] })) ∧
      (e.str ≠ ['/'] → ∀ c, mp_obj_str_get_str cwd_o = .ok c →
        mp_vfs_getcwd K R s =
          (.ok (Val.str (if cstr c = ['/'] then e.str else e.str ++ cstr c)),
           { s with world := w,
                    trace := s.trace ++ [Event.call e.obj MP_QSTR_getcwd []] }))) ∧
    (∀ (e : mp_vfs_mount_t) (v : Val) (s1 : mp_state_vm σ) (cwd_o : Val) (w : σ) (c : List Char),
      tableWf s.vfs_mount_table →
      s.vfs_mount_table.find? (fun vfs => boundary_matches vfs q_usb_sub) = some e →
      e.str = s_usb →
      mp_vfs_chdir K R p_usb_sub s = (.ok v, s1) →
      R.call_method s1.world e.obj MP_QSTR_getcwd [] = (.ok cwd_o, w) →
      mp_obj_str_get_str cwd_o = .ok c →
      (mp_vfs_getcwd K R s1).1 =
        .ok (Val.str (if cstr c = ['/'] then s_usb else s_usb ++ cstr c))) := by
  refine ⟨?_, ?_, ?_⟩
  · intro hcur
    simp [mp_vfs_getcwd, hcur]
  · intro e cwd_o w hcur he hcall
    exact mp_vfs_getcwd_node K R s e hcur he cwd_o w hcall
  · intro e v s1 cwd_o w c hT hfind hstr hok hcall hc
    have hmem : e ∈ s.vfs_mount_table := List.mem_of_find?_eq_some hfind
    have he : e.wf := hT e hmem
    have hres : resolves_to s p_usb_sub (node e) := by
      refine ⟨'/' :: q_usb_sub, rfl, ?_⟩
      rw [lookup_absolute _ _ q_usb_sub hT (by decide) (by decide), hfind]
    obtain ⟨hcur1, _⟩ := mp_vfs_chdir_ok_node K R s s1 p_usb_sub v e hres hok
    have hne : e.str ≠ ['/'] := by rw [hstr]; decide
    rw [(mp_vfs_getcwd_node K R s1 e hcur1 he cwd_o w hcall).2 hne c hc, hstr]

/-- C7, with `/usb` and `/flash` mounted: after `chdir` to `/usb/sub` the
backend of `/usb` reports `/sub` and `getcwd` is `/usb/sub`. -/
theorem C7_getcwd_joins_mount_point_witness :
    tableWf (state0 table_usb_flash).vfs_mount_table ∧
    (mp_vfs_getcwd config_std toy_runtime
        (mp_vfs_chdir config_std toy_runtime p_usb_sub (state0 table_usb_flash)).2).1
      = .ok (Val.str ['/', 'u', 's', 'b', '/', 's', 'u', 'b']) :=
  ⟨by decide,
   ((C7_getcwd_joins_mount_point config_std toy_runtime (state0 table_usb_flash)).2.2
      ⟨s_usb, 1⟩ Val.none
      (mp_vfs_chdir config_std toy_runtime p_usb_sub (state0 table_usb_flash)).2
      (Val.str ['/', 's', 'u', 'b'])
      (fun k => if k = 1 then ['/', 's', 'u', 'b'] else ['/'])
      ['/', 's', 'u', 'b']
      (by decide) (by decide) rfl rfl rfl rfl).trans rfl⟩

/-! ## The cross-mount directory iterator -/

theorem proxy_call_node {σ : Type} (K : Config) (R : Runtime σ) (s : mp_state_vm σ)
    (e : mp_vfs_mount_t) (meth : qstr) (args : List Val) :
    mp_vfs_proxy_call K R (node e) meth args s = one_call R s e.obj meth args := rfl

theorem lookup_path_of_resolves_with {σ : Type} (s : mp_state_vm σ) (p po : Val)
    (e : mp_vfs_mount_t) (r : List Char) (h : resolves_with s p e r) :
    lookup_path s p po = .ok (node e, mp_obj_new_str_of_type p r) := by
  obtain ⟨path, out, hp, hl, hr⟩ := h
  simp only [lookup_path, hp, hl, hr]

theorem resolves_with_is_string {σ : Type} (s : mp_state_vm σ) (p : Val) (e : mp_vfs_mount_t)
    (r : List Char) (h : resolves_with s p e r) :
    (∃ d, p = Val.str d) ∨ (∃ d, p = Val.bytes d) := by
  obtain ⟨path, out, hp, _, _⟩ := h
  cases p <;> simp [mp_obj_str_get_str] at hp
  · exact Or.inl ⟨_, rfl⟩
  · exact Or.inr ⟨_, rfl⟩

theorem cstr_idem (c : List Char) : cstr (cstr c) = cstr c := by
  unfold cstr
  rw [List.takeWhile_eq_self_iff]
  intro x hx
  exact List.mem_takeWhile_imp (p := fun c => decide (c ≠ NUL)) hx

/-- The test of `mp_vfs_mkdir` on the remainder object of a resolved path. -/
theorem str_is_slash_remainder {σ : Type} (s : mp_state_vm σ) (p : Val) (e : mp_vfs_mount_t)
    (r : List Char) (h : resolves_with s p e r) :
    str_is_slash (mp_obj_new_str_of_type p r) = .ok (decide (r = ['/'])) := by
  have hr : cstr r = r := by
    obtain ⟨_, out, _, _, hr⟩ := h
    rw [← hr, cstr_idem]
  rcases resolves_with_is_string s p e r h with ⟨d, rfl⟩ | ⟨d, rfl⟩ <;>
    simp [str_is_slash, mp_obj_new_str_of_type, mp_obj_str_get_str, hr]

theorem one_call_trace_ne {σ : Type} (R : Runtime σ) (s : mp_state_vm σ) (obj : Nat)
    (meth : qstr) (args : List Val) : (one_call R s obj meth args).2 ≠ s := by
  intro h
  have ht : (one_call R s obj meth args).2.trace = s.trace := by rw [h]
  simp [one_call] at ht

/-- C11: `mp_vfs_mkdir` raises `OSError(MP_EEXIST)` in an unchanged machine
state (no backend is called) when the path resolves to `MP_VFS_ROOT` and
when it resolves to a node with the remainder `/`; on a node with another
remainder `r` it is exactly one call of that backend's `mkdir` on `r`; on
`MP_VFS_NONE` it raises `OSError(MP_ENODEV)`.  So, the two error numbers
being different, the already-exists error without a backend call comes
exactly in the first two cases. -/
theorem C11_mkdir_mount_point_exists {σ : Type} (K : Config) (R : Runtime σ)
    (s : mp_state_vm σ) (path_in : Val) :
    (resolves_to s path_in MP_VFS_ROOT →
      mp_vfs_mkdir K R path_in s = (.error (Exc.OSError K.MP_EEXIST), s)) ∧
    (∀ e, resolves_with s path_in e ['/'] →
      mp_vfs_mkdir K R path_in s = (.error (Exc.OSError K.MP_EEXIST), s)) ∧
    (∀ e r, resolves_with s path_in e r → r ≠ ['/'] →
      mp_vfs_mkdir K R path_in s =
        one_call R s e.obj MP_QSTR_mkdir [mp_obj_new_str_of_type path_in r]) ∧
    (resolves_to s path_in MP_VFS_NONE →
      mp_vfs_mkdir K R path_in s = (.error (Exc.OSError K.MP_ENODEV), s)) ∧
    (K.MP_ENODEV ≠ K.MP_EEXIST →
      ((resolves_to s path_in MP_VFS_NONE ∨ ∃ e r, resolves_with s path_in e r ∧ r ≠ ['/']) →
        mp_vfs_mkdir K R path_in s ≠ (.error (Exc.OSError K.MP_EEXIST), s))) := by
  have h1 : resolves_to s path_in MP_VFS_ROOT →
      mp_vfs_mkdir K R path_in s = (.error (Exc.OSError K.MP_EEXIST), s) := by
    intro h
    simp [mp_vfs_mkdir, lookup_path_of_resolves_ROOT s path_in _ h]
  have h2 : ∀ e, resolves_with s path_in e ['/'] →
      mp_vfs_mkdir K R path_in s = (.error (Exc.OSError K.MP_EEXIST), s) := by
    intro e h
    simp [mp_vfs_mkdir, lookup_path_of_resolves_with s path_in _ e _ h,
      str_is_slash_remainder s path_in e _ h]
  have h3 : ∀ e r, resolves_with s path_in e r → r ≠ ['/'] →
      mp_vfs_mkdir K R path_in s =
        one_call R s e.obj MP_QSTR_mkdir [mp_obj_new_str_of_type path_in r] := by
    intro e r h hr
    simp [mp_vfs_mkdir, lookup_path_of_resolves_with s path_in _ e _ h,
      str_is_slash_remainder s path_in e _ h, hr, proxy_call_node]
  have h4 : resolves_to s path_in MP_VFS_NONE →
      mp_vfs_mkdir K R path_in s = (.error (Exc.OSError K.MP_ENODEV), s) := by
    intro h
    simp [mp_vfs_mkdir, lookup_path_of_resolves_NONE s path_in _ h, mp_vfs_proxy_call]
  refine ⟨h1, h2, h3, h4, ?_⟩
  intro hK hcase
  rcases hcase with h | ⟨e, r, h, hr⟩
  · rw [h4 h]
    intro heq
    simp only [Prod.mk.injEq, Except.error.injEq, Exc.OSError.injEq] at heq
    exact hK heq.1
  · rw [h3 e r h hr]
    intro heq
    exact one_call_trace_ne R s e.obj MP_QSTR_mkdir _ (congrArg Prod.snd heq)

/-- C12: `mp_vfs_stat` on a path that resolves to `MP_VFS_ROOT` returns, in
an unchanged machine state (no backend is called, whatever is mounted), the
10-tuple whose first item is `MP_S_IFDIR` and whose other nine items are 0. -/
theorem C12_stat_virtual_root {σ : Type} (K : Config) (R : Runtime σ) (s : mp_state_vm σ)
    (path_in : Val) (h : resolves_to s path_in MP_VFS_ROOT) :
    mp_vfs_stat K R path_in s =
      (.ok (Val.tuple [Val.int K.MP_S_IFDIR, Val.int 0, Val.int 0, Val.int 0, Val.int 0,
                       Val.int 0, Val.int 0, Val.int 0, Val.int 0, Val.int 0]), s) := by
  simp [mp_vfs_stat, lookup_path_of_resolves_ROOT s path_in _ h, List.replicate]

/-- C12, on the path `/` with a backend mounted at `/`. -/
theorem C12_stat_virtual_root_witness :
    resolves_to (state0 table_root) MP_QSTR__slash_ MP_VFS_ROOT ∧
    mp_vfs_stat config_std toy_runtime MP_QSTR__slash_ (state0 table_root) =
      (.ok (Val.tuple [Val.int 16384, Val.int 0, Val.int 0, Val.int 0, Val.int 0,
                       Val.int 0, Val.int 0, Val.int 0, Val.int 0, Val.int 0]),
       state0 table_root) :=
  ⟨⟨_, rfl, by decide⟩,
   C12_stat_virtual_root config_std toy_runtime (state0 table_root) MP_QSTR__slash_
     ⟨_, rfl, by decide⟩⟩

/-- C11, on the mount point `/usb` itself. -/
theorem C11_mkdir_mount_point_exists_witness :
    resolves_with (state0 table_usb_flash) (Val.str s_usb) ⟨s_usb, 1⟩ ['/'] ∧
    mp_vfs_mkdir config_std toy_runtime (Val.str s_usb) (state0 table_usb_flash) =
      (.error (Exc.OSError 17), state0 table_usb_flash) :=
  ⟨⟨_, _, rfl, rfl, rfl⟩,
   (C11_mkdir_mount_point_exists config_std toy_runtime (state0 table_usb_flash)
     (Val.str s_usb)).2.1 ⟨s_usb, 1⟩ ⟨_, _, rfl, rfl, rfl⟩⟩

/-- C16: on a path that resolves to the node `e` with remainder `r`, each of
open, stat, statvfs, remove, rmdir, ilistdir, and mkdir when `r` is not `/`,
is exactly one call of the method of the same name on the backend of `e`,
with the remainder object in the place of the path, and returns the result
or the error of that call as it is; rename of two paths that resolve to the
same node is exactly one call of `rename` on the two remainders. -/
theorem C16_forwards_to_backend {σ : Type} (K : Config) (R : Runtime σ) (s : mp_state_vm σ)
    (path_in : Val) (e : mp_vfs_mount_t) (r : List Char) (h : resolves_with s path_in e r) :
    (∀ mode, mp_vfs_open K R path_in mode s =
      one_call R s e.obj MP_QSTR_open [mp_obj_new_str_of_type path_in r, mode]) ∧
    mp_vfs_stat K R path_in s =
      one_call R s e.obj MP_QSTR_stat [mp_obj_new_str_of_type path_in r] ∧
    mp_vfs_statvfs K R path_in s =
      one_call R s e.obj MP_QSTR_statvfs [mp_obj_new_str_of_type path_in r] ∧
    mp_vfs_remove K R path_in s =
      one_call R s e.obj MP_QSTR_remove [mp_obj_new_str_of_type path_in r] ∧
    mp_vfs_rmdir K R path_in s =
      one_call R s e.obj MP_QSTR_rmdir [mp_obj_new_str_of_type path_in r] ∧
    mp_vfs_ilistdir K R (some path_in) s =
      (Except.map ilistdir_obj.backend
         (one_call R s e.obj MP_QSTR_ilistdir [mp_obj_new_str_of_type path_in r]).1,
       (one_call R s e.obj MP_QSTR_ilistdir [mp_obj_new_str_of_type path_in r]).2) ∧
    (r ≠ ['/'] → mp_vfs_mkdir K R path_in s =
      one_call R s e.obj MP_QSTR_mkdir [mp_obj_new_str_of_type path_in r]) ∧
    (∀ new_path_in r2, resolves_with s new_path_in e r2 →
      mp_vfs_rename K R path_in new_path_in s =
        one_call R s e.obj MP_QSTR_rename
          [mp_obj_new_str_of_type path_in r, mp_obj_new_str_of_type new_path_in r2]) := by
  have hl := lookup_path_of_resolves_with s path_in
  refine ⟨?_, ?_, ?_, ?_, ?_, ?_, ?_, ?_⟩
  · intro mode
    rw [mp_vfs_open_of_string K R s path_in mode (resolves_with_is_string s path_in e r h),
      hl _ e r h]
    rfl
  · simp [mp_vfs_stat, hl _ e r h, proxy_call_node]
  · simp [mp_vfs_statvfs, hl _ e r h, proxy_call_node]
  · simp [mp_vfs_remove, hl _ e r h, proxy_call_node]
  · simp [mp_vfs_rmdir, hl _ e r h, proxy_call_node]
  · simp only [mp_vfs_ilistdir, hl _ e r h, proxy_call_node]
    rw [if_neg (by simp)]
    rcases one_call R s e.obj MP_QSTR_ilistdir [mp_obj_new_str_of_type path_in r] with ⟨x, s1⟩
    cases x <;> rfl
  · intro hr
    simp [mp_vfs_mkdir, hl _ e r h, str_is_slash_remainder s path_in e r h, hr,
      proxy_call_node]
  · intro new_path_in r2 h2
    simp [mp_vfs_rename, hl _ e r h, lookup_path_of_resolves_with s new_path_in _ e r2 h2,
      proxy_call_node]

/-- C16, removing `/usb/f` with `/usb` and `/flash` mounted: one call of
`remove` on the remainder `/f`. -/
theorem C16_forwards_to_backend_witness :
    resolves_with (state0 table_usb_flash) p_usb_f ⟨s_usb, 1⟩ ['/', 'f'] ∧
    mp_vfs_remove config_std toy_runtime p_usb_f (state0 table_usb_flash) =
      (.ok Val.none,
       { state0 table_usb_flash with
           trace := [Event.call 1 MP_QSTR_remove [Val.str ['/', 'f']]] }) :=
  ⟨⟨_, _, rfl, rfl, rfl⟩,
   (C16_forwards_to_backend config_std toy_runtime (state0 table_usb_flash) p_usb_f
     ⟨s_usb, 1⟩ ['/', 'f'] ⟨_, _, rfl, rfl, rfl⟩).2.2.2.1.trans rfl⟩

/-! ## Change of the current volume -/

/-- C13: a successful `mp_vfs_chdir`.  On a path that resolves to the node
`e` with remainder `r` the state afterwards is the state before with `e` as
current volume and exactly one backend call, `chdir` of the backend of `e`
on `r`.  On a path that resolves to `MP_VFS_ROOT` the current volume is
`MP_VFS_ROOT` afterwards, with exactly one call `chdir("/")` on the backend
of the first node mounted at `/` when there is one, and no call otherwise. -/
theorem C13_chdir_success {σ : Type} (K : Config) (R : Runtime σ) (s s1 : mp_state_vm σ)
    (path_in v : Val) (hT : tableWf s.vfs_mount_table)
    (hok : mp_vfs_chdir K R path_in s = (.ok v, s1)) :
    (∀ e r, resolves_with s path_in e r →
      s1 = { s with
        vfs_cur := node e
        world := (R.call_method s.world e.obj MP_QSTR_chdir
                    [mp_obj_new_str_of_type path_in r]).2
        trace := s.trace ++
          [Event.call e.obj MP_QSTR_chdir [mp_obj_new_str_of_type path_in r]] }) ∧
    (resolves_to s path_in MP_VFS_ROOT →
      (∀ l1 m l2, s.vfs_mount_table = l1 ++ m :: l2 → m.str = ['/'] →
        (∀ x ∈ l1, x.str ≠ ['/']) →
        s1 = { s with
          vfs_cur := MP_VFS_ROOT
          world := (R.call_method s.world m.obj MP_QSTR_chdir [MP_QSTR__slash_]).2
          trace := s.trace ++ [Event.call m.obj MP_QSTR_chdir [MP_QSTR__slash_]] }) ∧
      ((∀ x ∈ s.vfs_mount_table, x.str ≠ ['/']) →
        s1 = { s with vfs_cur := MP_VFS_ROOT })) := by
  constructor
  · intro e r h
    simp only [mp_vfs_chdir, lookup_path_of_resolves_with s path_in _ e r h,
      mp_vfs_proxy_call] at hok
    rw [if_neg (by simp)] at hok
    split at hok
    · simp at hok
    · rename_i heq
      simp only [Prod.mk.injEq] at hok heq
      rw [← hok.2, ← heq.2]
  · intro h
    have hfr := first_root_mount_eq_find s.vfs_mount_table hT
    simp only [mp_vfs_chdir, lookup_path_of_resolves_ROOT s path_in _ h, if_true] at hok
    constructor
    · intro l1 m l2 hTe hm hl1
      have hf : s.vfs_mount_table.find? (fun v => decide (v.str = ['/'])) = some m := by
        rw [List.find?_eq_some]
        exact ⟨by simp [hm], l1, l2, hTe, fun a ha => by simp [hl1 a ha]⟩
      simp only [hfr, hf, mp_vfs_proxy_call] at hok
      split at hok
      · simp at hok
      · rename_i heq
        simp only [Prod.mk.injEq] at hok heq
        rw [← hok.2, ← heq.2]
    · intro hno
      have hf : s.vfs_mount_table.find? (fun v => decide (v.str = ['/'])) = none := by
        rw [List.find?_eq_none]
        intro x hx
        simp [hno x hx]
      simp only [hfr, hf, Prod.mk.injEq] at hok
      exact hok.2.symm

/-- C13, `chdir` to `/usb/sub` with `/usb` and `/flash` mounted. -/
theorem C13_chdir_success_witness :
    tableWf (state0 table_usb_flash).vfs_mount_table ∧
    resolves_with (state0 table_usb_flash) p_usb_sub ⟨s_usb, 1⟩ ['/', 's', 'u', 'b'] ∧
    (mp_vfs_chdir config_std toy_runtime p_usb_sub (state0 table_usb_flash)).2.vfs_cur
      = node ⟨s_usb, 1⟩ ∧
    (mp_vfs_chdir config_std toy_runtime p_usb_sub (state0 table_usb_flash)).2.trace
      = [Event.call 1 MP_QSTR_chdir [Val.str ['/', 's', 'u', 'b']]] := by
  have h := (C13_chdir_success config_std toy_runtime (state0 table_usb_flash)
    (mp_vfs_chdir config_std toy_runtime p_usb_sub (state0 table_usb_flash)).2
    p_usb_sub Val.none (by decide) rfl).1 ⟨s_usb, 1⟩ ['/', 's', 'u', 'b'] ⟨_, _, rfl, rfl, rfl⟩
  refine ⟨by decide, ⟨_, _, rfl, rfl, rfl⟩, ?_, ?_⟩
  · rw [h]
  · rw [h]
    rfl

/-- C14, the code at two failing inputs.  With `/usb` and `/flash` mounted
and the virtual root as current volume, `chdir` to `/nope` raises
`OSError(MP_ENODEV)` and leaves `MP_VFS_NONE` as current volume; and when
the backend's `chdir` raises, `chdir` to `/usb/sub` raises that error and
leaves the node of `/usb` as current volume. -/
theorem C14_chdir_failure_changes_current_volume :
    (state0 table_usb_flash).vfs_cur = MP_VFS_ROOT ∧
    (mp_vfs_chdir config_std toy_runtime p_nope (state0 table_usb_flash)).1
      = .error (Exc.OSError 19) ∧
    (mp_vfs_chdir config_std toy_runtime p_nope (state0 table_usb_flash)).2.vfs_cur
      = MP_VFS_NONE ∧
    (state0_unit table_usb_flash).vfs_cur = MP_VFS_ROOT ∧
    (mp_vfs_chdir config_std failing_runtime p_usb_sub (state0_unit table_usb_flash)).1
      = .error (Exc.OSError 2) ∧
    (mp_vfs_chdir config_std failing_runtime p_usb_sub (state0_unit table_usb_flash)).2.vfs_cur
      = node ⟨s_usb, 1⟩ :=
  ⟨rfl, rfl, rfl, rfl, rfl, rfl⟩

/-! ## The resolver: remainders, reordering, relative paths -/

/-- The loop of the resolver, in full: the first node that boundary-matches
and its remainder. -/
theorem lookup_loop_eq (q : List Char) (is_abs : Bool) (T : List mp_vfs_mount_t)
    (hT : tableWf T) (hq : NUL ∉ q) :
    lookup_loop q is_abs T =
      (T.find? (fun vfs => boundary_matches vfs q)).map
        (fun vfs => (vfs, loop_remainder q is_abs vfs)) := by
  induction T with
  | nil => simp [lookup_loop]
  | cons vfs next ih =>
    have hvfs : vfs.wf := hT vfs (by simp)
    have hnext : tableWf next := fun v hv => hT v (List.mem_cons_of_mem _ hv)
    rw [lookup_loop_cons q is_abs vfs next hvfs hq, List.find?_cons]
    cases hb : boundary_matches vfs q with
    | true => simp [loop_remainder]
    | false => simp [ih hnext]

/-- The resolver on an absolute path `/q`, in full. -/
theorem lookup_absolute_full (T : List mp_vfs_mount_t) (cur : mp_vfs_mount_ptr)
    (q : List Char) (hT : tableWf T) (hq : NUL ∉ q) :
    mp_vfs_lookup_path T cur ('/' :: q) =
      if q = [] then (MP_VFS_ROOT, none)
      else
        match T.find? (fun vfs => boundary_matches vfs q) with
        | some vfs => (node vfs, some (loop_remainder q true vfs))
        | none => (MP_VFS_NONE, none) := by
  by_cases hne : q = []
  · subst hne
    simp [mp_vfs_lookup_path, charAt]
  · have h0 := charAt_zero_ne_NUL q hne hq
    have hl := lookup_loop_eq q true T hT hq
    unfold mp_vfs_lookup_path
    simp only [charAt, List.getD_cons_zero, true_or, if_true, decide_True, List.drop_succ_cons,
      List.drop_zero]
    simp only [charAt] at h0
    rw [if_neg h0, if_neg hne, hl]
    cases T.find? (fun vfs => boundary_matches vfs q) with
    | none => simp
    | some r => simp

/-- C18: when an absolute path `/q` resolves to a node `e`, the remainder `r`
starts with `/`; it is the whole path when `e` is mounted at `/`, and
otherwise either the path is the mount point and `r` is `/`, or the path is
the mount point followed by `r`. -/
theorem C18_remainder_reconstructs_path (T : List mp_vfs_mount_t) (cur : mp_vfs_mount_ptr)
    (q : List Char) (e : mp_vfs_mount_t) (r : List Char) (hT : tableWf T) (hq : NUL ∉ q)
    (h : mp_vfs_lookup_path T cur ('/' :: q) = (node e, some r)) :
    r.head? = some '/' ∧
    (e.str = ['/'] → r = '/' :: q) ∧
    (e.str ≠ ['/'] → ('/' :: q = e.str ∧ r = ['/']) ∨ '/' :: q = e.str ++ r) := by
  rw [lookup_absolute_full T cur q hT hq] at h
  by_cases hne : q = []
  · simp [hne] at h
  · rw [if_neg hne] at h
    cases hf : T.find? (fun vfs => boundary_matches vfs q) with
    | none => simp [hf] at h
    | some v =>
      simp only [hf, Prod.mk.injEq, node.injEq, Option.some.injEq] at h
      obtain ⟨hv, hr⟩ := h
      subst hv
      have hbm : boundary_matches v q = true := by
        simpa using List.find?_some hf
      have hwf : v.wf := hT v (List.mem_of_find?_eq_some hf)
      have hstr := cons_tail_of_head v.str hwf.1
      by_cases hroot : v.str = ['/']
      · have : r = '/' :: q := by rw [← hr]; simp [loop_remainder, hroot, ptr_back]
        subst this
        exact ⟨rfl, fun _ => rfl, fun hc => absurd hroot hc⟩
      · rcases (boundary_matches_iff v q).1 hbm with h1 | ⟨rr, hqr, hrr⟩
        · exact absurd h1 hroot
        · have hlen : v.len - 1 = (v.str.drop 1).length := by simp [mp_vfs_mount_t.len]
          have hdrop : q.drop (v.len - 1) = rr := by
            rw [hlen]
            conv_lhs => rw [hqr]
            exact List.drop_left _ _
          have hstr1 : v.str = '/' :: v.str.drop 1 := by
            rw [List.drop_one]; exact hstr
          rcases hrr with hnil | ⟨r1, hr1⟩
          · have hr2 : r = ['/'] := by
              rw [← hr]; simp [loop_remainder, hroot, hdrop, hnil]
            refine ⟨by rw [hr2]; rfl, fun hc => absurd hc hroot, fun _ => Or.inl ⟨?_, hr2⟩⟩
            rw [hqr, hnil, List.append_nil]
            exact hstr1.symm
          · have hr2 : r = rr := by
              rw [← hr]; simp [loop_remainder, hroot, hdrop, hr1]
            refine ⟨by rw [hr2, hr1]; rfl, fun hc => absurd hc hroot, fun _ => Or.inr ?_⟩
            rw [hr2]
            conv_lhs => rw [hqr]
            conv_rhs => rw [hstr1]
            rfl

/-- C18, on `/usb/sub` with `/usb` and `/flash` mounted: the remainder is
`/sub`. -/
theorem C18_remainder_reconstructs_path_witness :
    tableWf table_usb_flash ∧
    mp_vfs_lookup_path table_usb_flash MP_VFS_ROOT ('/' :: q_usb_sub)
      = (node ⟨s_usb, 1⟩, some ['/', 's', 'u', 'b']) ∧
    (('/' :: q_usb_sub = s_usb ∧ ['/', 's', 'u', 'b'] = ['/']) ∨
      '/' :: q_usb_sub = s_usb ++ ['/', 's', 'u', 'b']) :=
  ⟨by decide, by decide,
   (C18_remainder_reconstructs_path table_usb_flash MP_VFS_ROOT q_usb_sub ⟨s_usb, 1⟩
     ['/', 's', 'u', 'b'] (by decide) (by decide) (by decide)).2.2 (by decide)⟩

/-- C20: when the current volume is a node `e`, a path that is not empty and
does not start with `/` resolves to `e` with the path itself as remainder,
whatever the mount table holds. -/
theorem C20_relative_path_stays_on_current_volume (T : List mp_vfs_mount_t)
    (e : mp_vfs_mount_t) (p : List Char) (hne : p ≠ []) (hrel : p.head? ≠ some '/') :
    mp_vfs_lookup_path T (node e) p = (node e, some p) := by
  have h0 : charAt p 0 ≠ '/' := by
    cases p with
    | nil => exact absurd rfl hne
    | cons c r =>
      simp only [charAt, List.getD_cons_zero]
      intro hc
      exact hrel (by simp [hc])
  simp [mp_vfs_lookup_path, h0]

/-- C20, the relative name `flash` while the current volume is the node
mounted at `/usb` and `/flash` is mounted too. -/
theorem C20_relative_path_stays_on_current_volume_witness :
    mp_vfs_lookup_path table_usb_flash (node ⟨s_usb, 1⟩) ['f', 'l', 'a', 's', 'h']
      = (node ⟨s_usb, 1⟩, some ['f', 'l', 'a', 's', 'h']) :=
  C20_relative_path_stays_on_current_volume table_usb_flash ⟨s_usb, 1⟩
    ['f', 'l', 'a', 's', 'h'] (by decide) (by decide)

/-- Swapping two elements of a list does not change the first element that
satisfies `p` when `p` never holds of both and never holds of one of them
together with an element between them. -/
theorem find_swap {α : Type} (p : α → Bool) (l1 mid l2 : List α) (a b : α)
    (hab : ¬ (p a = true ∧ p b = true))
    (hmid : ∀ c ∈ mid, p c = true → p a = false ∧ p b = false) :
    (l1 ++ b :: (mid ++ a :: l2)).find? p = (l1 ++ a :: (mid ++ b :: l2)).find? p := by
  simp only [List.find?_append, List.find?_cons]
  cases ha : p a <;> cases hb : p b
  · rfl
  · have hm : mid.find? p = none := by
      rw [List.find?_eq_none]
      intro c hc hpc
      have := (hmid c hc hpc).2
      rw [hb] at this
      exact absurd this (by simp)
    simp [hm]
  · have hm : mid.find? p = none := by
      rw [List.find?_eq_none]
      intro c hc hpc
      have := (hmid c hc hpc).1
      rw [ha] at this
      exact absurd this (by simp)
    simp [hm]
  · exact absurd ⟨ha, hb⟩ hab

theorem boundary_matches_head (vfs : mp_vfs_mount_t) (q : List Char) (c : Char)
    (rest : List Char) (hstr : vfs.str.drop 1 = c :: rest)
    (h : boundary_matches vfs q = true) : q.head? = some c := by
  rcases (boundary_matches_iff vfs q).1 h with h1 | ⟨r, hq, _⟩
  · rw [h1] at hstr
    simp at hstr
  · rw [hq, hstr]
    rfl

/-- C17, the claim fails: `/usb/deep` and `/flash` do not overlap, yet
swapping them in the table `/usb/deep`, `/usb`, `/flash` changes what
`/usb/deep/x` resolves to, from the node of `/usb/deep` with remainder `/x`
to the node of `/usb` with remainder `/deep/x`. -/
theorem C17_swap_counterexample :
    s_usb_deep ≠ ['/'] ∧ s_flash ≠ ['/'] ∧
    (∀ q, ¬ (boundary_matches ⟨s_usb_deep, 2⟩ q = true ∧
             boundary_matches ⟨s_flash, 3⟩ q = true)) ∧
    mp_vfs_lookup_path table_deep_usb_flash MP_VFS_ROOT ('/' :: q_usb_deep_x)
      = (node ⟨s_usb_deep, 2⟩, some ['/', 'x']) ∧
    mp_vfs_lookup_path table_flash_usb_deep MP_VFS_ROOT ('/' :: q_usb_deep_x)
      = (node ⟨s_usb, 1⟩, some ['/', 'd', 'e', 'e', 'p', '/', 'x']) ∧
    mp_vfs_lookup_path table_flash_usb_deep MP_VFS_ROOT ('/' :: q_usb_deep_x)
      ≠ mp_vfs_lookup_path table_deep_usb_flash MP_VFS_ROOT ('/' :: q_usb_deep_x) := by
  refine ⟨by decide, by decide, ?_, by decide, by decide, by decide⟩
  rintro q ⟨h1, h2⟩
  have e1 := boundary_matches_head ⟨s_usb_deep, 2⟩ q 'u' _ rfl h1
  have e2 := boundary_matches_head ⟨s_flash, 3⟩ q 'f' _ rfl h2
  rw [e1] at e2
  exact absurd e2 (by decide)

/-- C17, amended: when two nodes `a` and `b` of the table boundary-match no
common path, and no node between them boundary-matches a path that `a` or
`b` boundary-matches, the table with `a` and `b` swapped resolves every
absolute path to the same node and remainder. -/
theorem C17_swap_non_overlapping (l1 mid l2 : List mp_vfs_mount_t) (a b : mp_vfs_mount_t)
    (cur : mp_vfs_mount_ptr) (q : List Char)
    (hT : tableWf (l1 ++ a :: (mid ++ b :: l2)))
    (hab : ∀ q1, NUL ∉ q1 →
      ¬ (boundary_matches a q1 = true ∧ boundary_matches b q1 = true))
    (hmid : ∀ c ∈ mid, ∀ q1, NUL ∉ q1 → boundary_matches c q1 = true →
      boundary_matches a q1 = false ∧ boundary_matches b q1 = false)
    (hq : NUL ∉ q) :
    mp_vfs_lookup_path (l1 ++ b :: (mid ++ a :: l2)) cur ('/' :: q) =
      mp_vfs_lookup_path (l1 ++ a :: (mid ++ b :: l2)) cur ('/' :: q) := by
  have hT2 : tableWf (l1 ++ b :: (mid ++ a :: l2)) := by
    intro v hv
    apply hT v
    simp only [List.mem_append, List.mem_cons] at hv ⊢
    tauto
  rw [lookup_absolute_full _ cur q hT hq, lookup_absolute_full _ cur q hT2 hq,
    find_swap (fun vfs => boundary_matches vfs q) l1 mid l2 a b (hab q hq)
      (fun c hc => hmid c hc q hq)]

/-- C17, swapping the neighbours `/usb` and `/flash`: `/usb/sub` resolves as
before. -/
theorem C17_swap_non_overlapping_witness :
    tableWf ([] ++ (⟨s_usb, 1⟩ : mp_vfs_mount_t) :: ([] ++ ⟨s_flash, 2⟩ :: [])) ∧
    mp_vfs_lookup_path [⟨s_flash, 2⟩, ⟨s_usb, 1⟩] MP_VFS_ROOT ('/' :: q_usb_sub) =
      mp_vfs_lookup_path [⟨s_usb, 1⟩, ⟨s_flash, 2⟩] MP_VFS_ROOT ('/' :: q_usb_sub) :=
  ⟨by decide,
   C17_swap_non_overlapping [] [] [] ⟨s_usb, 1⟩ ⟨s_flash, 2⟩ MP_VFS_ROOT q_usb_sub (by decide)
     (fun q1 _ h =>
       absurd ((boundary_matches_head ⟨s_usb, 1⟩ q1 'u' _ rfl h.1).symm.trans
         (boundary_matches_head ⟨s_flash, 2⟩ q1 'f' _ rfl h.2)) (by decide))
     (fun c hc => absurd hc (List.not_mem_nil c)) (by decide)⟩

/-! ## The iterator after the end of the sequence -/

/-- C19, the claim fails: over a table with a backend mounted at `/` whose
directory is empty, the first `next()` delegates and signals the end, and the
second `next()` calls `mp_iternext` on the inner iterator once more. -/
theorem C19_delegated_end_counterexample :
    mp_vfs_ilistdir_it_iternext config_std toy_runtime (iter0 table_root) (state0 table_root)
      = some (.ok none, iter_delegated, state_after_first_next) ∧
    mp_vfs_ilistdir_it_iternext config_std toy_runtime iter_delegated state_after_first_next
      = some (.ok none, iter_delegated,
          { state_after_first_next with
              trace := state_after_first_next.trace ++ [Event.iternext (Val.obj 1)] }) ∧
    state_after_first_next.trace ++ [Event.iternext (Val.obj 1)]
      ≠ state_after_first_next.trace := by
  refine ⟨rfl, rfl, ?_⟩
  simp

/-- C19, amended: after a `next()` that signalled the end, an iterator that
is still walking the mounts has an exhausted cursor, and every later `next()`
signals the end again and leaves the machine state as it is; an iterator that
has delegated forwards every later `next()` to `mp_iternext` of the inner
iterator and returns what that returns. -/
theorem C19_after_end_of_sequence {σ : Type} (K : Config) (R : Runtime σ)
    (self self1 : mp_vfs_ilistdir_it_t) (s s1 : mp_state_vm σ)
    (h : mp_vfs_ilistdir_it_iternext K R self s = some (.ok none, self1, s1)) :
    (self1.is_iter = false →
      self1.cur = ilistdir_cur.vfs [] ∧
      ∀ s2, mp_vfs_ilistdir_it_iternext K R self1 s2 = some (.ok none, self1, s2)) ∧
    (self1.is_iter = true →
      ∃ inner, self1.cur = ilistdir_cur.iter inner ∧
        ∀ s2, mp_vfs_ilistdir_it_iternext K R self1 s2 =
          some ((mp_iternext R inner s2).1, self1, (mp_iternext R inner s2).2)) := by
  obtain ⟨cur, is_str, is_iter⟩ := self
  cases is_iter with
  | true =>
    cases cur with
    | vfs p => simp [mp_vfs_ilistdir_it_iternext] at h
    | iter o =>
      simp only [mp_vfs_ilistdir_it_iternext, if_true, Option.some.injEq, Prod.mk.injEq] at h
      obtain ⟨_, hself, _⟩ := h
      subst hself
      refine ⟨fun hc => by simp at hc, fun _ => ⟨o, rfl, fun s2 => ?_⟩⟩
      simp [mp_vfs_ilistdir_it_iternext]
  | false =>
    cases cur with
    | iter o => simp [mp_vfs_ilistdir_it_iternext] at h
    | vfs p =>
      cases p with
      | nil =>
        simp only [mp_vfs_ilistdir_it_iternext, Bool.false_eq_true, if_false,
          Option.some.injEq, Prod.mk.injEq, true_and] at h
        obtain ⟨hself, _⟩ := h
        subst hself
        refine ⟨fun _ => ⟨rfl, fun s2 => ?_⟩, fun hc => by simp at hc⟩
        simp [mp_vfs_ilistdir_it_iternext]
      | cons v next =>
        by_cases hv : v.len = 1
        · simp only [mp_vfs_ilistdir_it_iternext, Bool.false_eq_true, if_false, hv,
            if_true] at h
          split at h
          · simp at h
          · rename_i it s3 _
            simp only [Option.some.injEq, Prod.mk.injEq] at h
            obtain ⟨_, hself, _⟩ := h
            subst hself
            refine ⟨fun hc => by simp at hc, fun _ => ⟨it, rfl, fun s2 => ?_⟩⟩
            simp [mp_vfs_ilistdir_it_iternext]
        · simp [mp_vfs_ilistdir_it_iternext, hv] at h

/-- C19, an iterator whose cursor is exhausted: the end again, no call. -/
theorem C19_after_end_of_sequence_witness :
    mp_vfs_ilistdir_it_iternext config_std toy_runtime (iter0 []) (state0 table_usb_flash)
      = some (.ok none, iter0 [], state0 table_usb_flash) ∧
    mp_vfs_ilistdir_it_iternext config_std toy_runtime (iter0 []) state_after_first_next
      = some (.ok none, iter0 [], state_after_first_next) :=
  ⟨rfl,
   ((C19_after_end_of_sequence config_std toy_runtime (iter0 []) (iter0 [])
      (state0 table_usb_flash) (state0 table_usb_flash) rfl).1 rfl).2 state_after_first_next⟩

/-! ## `mp_vfs_import_stat` -/

/-- C15, the claim fails: with `/usb` mounted on a backend without protocol
helper whose `stat` returns `None`, `mp_vfs_import_stat` on `/usb/f` raises
`TypeError`; it neither swallows the error nor answers
`MP_IMPORT_STAT_FILE`. -/
theorem C15_malformed_stat_counterexample :
    mp_vfs_lookup_path (state0 table_usb_flash).vfs_mount_table
        (state0 table_usb_flash).vfs_cur ['/', 'u', 's', 'b', '/', 'f']
      = (node ⟨s_usb, 1⟩, some ['/', 'f']) ∧
    toy_runtime.has_protocol 1 = false ∧
    (toy_runtime.call_method (state0 table_usb_flash).world 1 MP_QSTR_stat
        [Val.str ['/', 'f']]).1 = .ok Val.none ∧
    (mp_vfs_import_stat config_std toy_runtime ['/', 'u', 's', 'b', '/', 'f']
        (state0 table_usb_flash)).1 = .error Exc.TypeError ∧
    (mp_vfs_import_stat config_std toy_runtime ['/', 'u', 's', 'b', '/', 'f']
        (state0 table_usb_flash)).1 ≠ .ok MP_IMPORT_STAT_FILE := by
  have h : (mp_vfs_import_stat config_std toy_runtime ['/', 'u', 's', 'b', '/', 'f']
      (state0 table_usb_flash)).1 = .error Exc.TypeError := rfl
  refine ⟨by decide, rfl, rfl, h, ?_⟩
  rw [h]
  simp

/-- C15, amended: `mp_vfs_import_stat` returns `MP_IMPORT_STAT_NO_EXIST` in
an unchanged machine state when the path resolves to one of the two
sentinels.  On a node whose backend has no protocol helper it makes exactly
one call, `stat` of that backend on the remainder.  When the call raises,
the answer is `MP_IMPORT_STAT_NO_EXIST` and nothing is raised; when it
returns a sequence of 10 items whose first is an integer, the answer is
`MP_IMPORT_STAT_DIR` if that mode has a bit of `MP_S_IFDIR` set and
`MP_IMPORT_STAT_FILE` otherwise.  When it returns anything else, the error
of decoding it is raised to the caller: `TypeError` for an object that is
no tuple or list, `ValueError` for a sequence of another length, `TypeError`
for a mode that is no integer. -/
theorem C15_import_stat_fallback {σ : Type} (K : Config) (R : Runtime σ) (s : mp_state_vm σ)
    (path : List Char) :
    ((mp_vfs_lookup_path s.vfs_mount_table s.vfs_cur path).1 = MP_VFS_ROOT ∨
      (mp_vfs_lookup_path s.vfs_mount_table s.vfs_cur path).1 = MP_VFS_NONE →
      mp_vfs_import_stat K R path s = (.ok MP_IMPORT_STAT_NO_EXIST, s)) ∧
    (∀ e out, mp_vfs_lookup_path s.vfs_mount_table s.vfs_cur path = (node e, some out) →
      R.has_protocol e.obj = false →
      (∀ err, (one_call R s e.obj MP_QSTR_stat [Val.str (cstr out)]).1 = .error err →
        mp_vfs_import_stat K R path s =
          (.ok MP_IMPORT_STAT_NO_EXIST,
           (one_call R s e.obj MP_QSTR_stat [Val.str (cstr out)]).2)) ∧
      (∀ v items st_mode,
        (one_call R s e.obj MP_QSTR_stat [Val.str (cstr out)]).1 = .ok v →
        (v = Val.tuple items ∨ v = Val.list items) → items.length = 10 →
        items.head? = some (Val.int st_mode) →
        mp_vfs_import_stat K R path s =
          (.ok (if Int.land st_mode K.MP_S_IFDIR ≠ 0 then MP_IMPORT_STAT_DIR
                else MP_IMPORT_STAT_FILE),
           (one_call R s e.obj MP_QSTR_stat [Val.str (cstr out)]).2)) ∧
      (∀ v, (one_call R s e.obj MP_QSTR_stat [Val.str (cstr out)]).1 = .ok v →
        (∀ items, v ≠ Val.tuple items ∧ v ≠ Val.list items) →
        mp_vfs_import_stat K R path s =
          (.error Exc.TypeError,
           (one_call R s e.obj MP_QSTR_stat [Val.str (cstr out)]).2)) ∧
      (∀ v items, (one_call R s e.obj MP_QSTR_stat [Val.str (cstr out)]).1 = .ok v →
        (v = Val.tuple items ∨ v = Val.list items) → items.length ≠ 10 →
        mp_vfs_import_stat K R path s =
          (.error Exc.ValueError,
           (one_call R s e.obj MP_QSTR_stat [Val.str (cstr out)]).2)) ∧
      (∀ v items, (one_call R s e.obj MP_QSTR_stat [Val.str (cstr out)]).1 = .ok v →
        (v = Val.tuple items ∨ v = Val.list items) → items.length = 10 →
        (∀ m, items.head? ≠ some (Val.int m)) →
        mp_vfs_import_stat K R path s =
          (.error Exc.TypeError,
           (one_call R s e.obj MP_QSTR_stat [Val.str (cstr out)]).2))) := by
  constructor
  · intro h
    rcases hl : mp_vfs_lookup_path s.vfs_mount_table s.vfs_cur path with ⟨v, o⟩
    rw [hl] at h
    simp only at h
    rcases h with h | h <;> subst h <;> simp [mp_vfs_import_stat, hl]
  · intro e out hl hproto
    have hdef : mp_vfs_import_stat K R path s =
        match one_call R s e.obj MP_QSTR_stat [Val.str (cstr out)] with
        | (.error _, s1) => (.ok MP_IMPORT_STAT_NO_EXIST, s1)
        | (.ok stat, s1) =>
          match mp_obj_get_array_fixed_n stat 10 with
          | .error err => (.error err, s1)
          | .ok items =>
            match mp_obj_get_int (items.getD 0 Val.none) with
            | .error err => (.error err, s1)
            | .ok st_mode =>
              if Int.land st_mode K.MP_S_IFDIR ≠ 0 then (.ok MP_IMPORT_STAT_DIR, s1)
              else (.ok MP_IMPORT_STAT_FILE, s1) := by
      simp only [mp_vfs_import_stat, hl, hproto, Option.getD_some, proxy_call_node]
      rfl
    rw [hdef]
    rcases hc : one_call R s e.obj MP_QSTR_stat [Val.str (cstr out)] with ⟨x, s1⟩
    refine ⟨?_, ?_, ?_, ?_, ?_⟩
    · intro err hcall
      simp only at hcall
      subst hcall
      rfl
    · intro v items st_mode hcall hv hlen hhead
      simp only at hcall
      subst hcall
      obtain ⟨x0, rest, rfl⟩ : ∃ x0 rest, items = x0 :: rest := by
        cases items with
        | nil => simp at hlen
        | cons x0 rest => exact ⟨x0, rest, rfl⟩
      simp only [List.head?_cons, Option.some.injEq] at hhead
      subst hhead
      by_cases hm : Int.land st_mode K.MP_S_IFDIR = 0 <;>
        rcases hv with rfl | rfl <;>
        simp [mp_obj_get_array_fixed_n, mp_obj_get_int, hlen, hm]
    · intro v hcall hv
      simp only at hcall
      subst hcall
      cases v with
      | tuple items => exact absurd rfl (hv items).1
      | list items => exact absurd rfl (hv items).2
      | _ => rfl
    · intro v items hcall hv hlen
      simp only at hcall
      subst hcall
      rcases hv with rfl | rfl <;> simp [mp_obj_get_array_fixed_n, hlen]
    · intro v items hcall hv hlen hhead
      simp only at hcall
      subst hcall
      obtain ⟨x0, rest, rfl⟩ : ∃ x0 rest, items = x0 :: rest := by
        cases items with
        | nil => simp at hlen
        | cons x0 rest => exact ⟨x0, rest, rfl⟩
      have hx0 : mp_obj_get_int x0 = .error Exc.TypeError := by
        cases x0 with
        | int m => exact absurd rfl (hhead m)
        | _ => rfl
      rcases hv with rfl | rfl <;>
        simp [mp_obj_get_array_fixed_n, hlen, hx0]

/-- C15, on `/usb/f` when the `stat` of the backend raises: no error comes
out, the answer is `MP_IMPORT_STAT_NO_EXIST`. -/
theorem C15_import_stat_fallback_witness :
    mp_vfs_lookup_path (state0_unit table_usb_flash).vfs_mount_table
        (state0_unit table_usb_flash).vfs_cur ['/', 'u', 's', 'b', '/', 'f']
      = (node ⟨s_usb, 1⟩, some ['/', 'f']) ∧
    (mp_vfs_import_stat config_std failing_runtime ['/', 'u', 's', 'b', '/', 'f']
        (state0_unit table_usb_flash)).1 = .ok MP_IMPORT_STAT_NO_EXIST :=
  ⟨by decide,
   congrArg Prod.fst
     (((C15_import_stat_fallback config_std failing_runtime (state0_unit table_usb_flash)
        ['/', 'u', 's', 'b', '/', 'f']).2 ⟨s_usb, 1⟩ ['/', 'f'] (by decide) rfl).1
        (Exc.OSError 2) rfl)⟩

/-! ## Relative paths while the current volume is the virtual root -/

/-- The resolver on a relative path while the current volume is
`MP_VFS_ROOT`: the table is searched as for the absolute path, and without a
match the current volume, `MP_VFS_ROOT`, is returned with the path as
`*path_out`. -/
theorem lookup_relative_at_root (T : List mp_vfs_mount_t) (q : List Char) (hT : tableWf T)
    (hne : q ≠ []) (hrel : q.head? ≠ some '/') (hq : NUL ∉ q) :
    mp_vfs_lookup_path T MP_VFS_ROOT q =
      match T.find? (fun vfs => boundary_matches vfs q) with
      | some vfs => (node vfs, some (loop_remainder q false vfs))
      | none => (MP_VFS_ROOT, some q) := by
  have h0 := charAt_zero_ne_NUL q hne hq
  have hs : charAt q 0 ≠ '/' := by
    cases q with
    | nil => exact absurd rfl hne
    | cons c r =>
      simp only [charAt, List.getD_cons_zero]
      intro hc
      exact hrel (by simp [hc])
  have hl := lookup_loop_eq q false T hT hq
  unfold mp_vfs_lookup_path
  simp only [hs, false_or, if_true, decide_False, Bool.false_eq_true, if_false, h0, hl]
  cases T.find? (fun vfs => boundary_matches vfs q) with
  | none => simp
  | some r => simp

/-- C21: while the current volume is `MP_VFS_ROOT`, a relative path that is
not empty and boundary-matches no node of the table resolves to
`MP_VFS_ROOT`, not to `MP_VFS_NONE`; so `mp_vfs_stat` on it returns the
synthetic directory tuple and `mp_vfs_mkdir` on it raises
`OSError(MP_EEXIST)`, both without a backend call. -/
theorem C21_unmatched_relative_path_is_root {σ : Type} (K : Config) (R : Runtime σ)
    (s : mp_state_vm σ) (path_in : Val) (q : List Char)
    (hcur : s.vfs_cur = MP_VFS_ROOT) (hT : tableWf s.vfs_mount_table)
    (hstr : mp_obj_str_get_str path_in = .ok q)
    (hne : q ≠ []) (hrel : q.head? ≠ some '/') (hq : NUL ∉ q)
    (hno : ∀ v ∈ s.vfs_mount_table, boundary_matches v q = false) :
    mp_vfs_lookup_path s.vfs_mount_table s.vfs_cur q = (MP_VFS_ROOT, some q) ∧
    (mp_vfs_lookup_path s.vfs_mount_table s.vfs_cur q).1 ≠ MP_VFS_NONE ∧
    mp_vfs_stat K R path_in s =
      (.ok (Val.tuple [Val.int K.MP_S_IFDIR, Val.int 0, Val.int 0, Val.int 0, Val.int 0,
                       Val.int 0, Val.int 0, Val.int 0, Val.int 0, Val.int 0]), s) ∧
    mp_vfs_mkdir K R path_in s = (.error (Exc.OSError K.MP_EEXIST), s) := by
  have hf : s.vfs_mount_table.find? (fun vfs => boundary_matches vfs q) = none := by
    rw [List.find?_eq_none]
    intro x hx
    simp [hno x hx]
  have hl : mp_vfs_lookup_path s.vfs_mount_table s.vfs_cur q = (MP_VFS_ROOT, some q) := by
    rw [hcur, lookup_relative_at_root _ q hT hne hrel hq, hf]
  have hres : resolves_to s path_in MP_VFS_ROOT := ⟨q, hstr, by rw [hl]⟩
  have hlp := lookup_path_of_resolves_ROOT s path_in Val.none hres
  refine ⟨hl, by rw [hl]; simp, ?_, ?_⟩
  · simp [mp_vfs_stat, hlp, List.replicate]
  · simp [mp_vfs_mkdir, hlp]

/-- C21, the relative name `nope` with `/usb` and `/flash` mounted and the
virtual root as current volume: `mkdir` says that it exists already. -/
theorem C21_unmatched_relative_path_is_root_witness :
    (state0 table_usb_flash).vfs_cur = MP_VFS_ROOT ∧
    tableWf (state0 table_usb_flash).vfs_mount_table ∧
    (∀ v ∈ (state0 table_usb_flash).vfs_mount_table, boundary_matches v q_nope = false) ∧
    mp_vfs_mkdir config_std toy_runtime (Val.str q_nope) (state0 table_usb_flash) =
      (.error (Exc.OSError 17), state0 table_usb_flash) :=
  ⟨rfl, by decide, by decide,
   (C21_unmatched_relative_path_is_root config_std toy_runtime (state0 table_usb_flash)
     (Val.str q_nope) q_nope rfl (by decide) rfl (by decide) (by decide) (by decide)
     (by decide)).2.2.2⟩

end Vfs
